import Mathlib

/-!
# Simulated disk (`config.cpp`): a shallow embedding

The program stores text records in sector files laid out as
`<base>/P<p>/S<s>/Track<t>/Sector<k>.txt`.  The embedding keeps the program's
names.  Conventions:

* `std::string` is a list of bytes, written `Cadena` (`List Char`).
* `int` and `long` values are `Int`.  Lengths are not wrapped: a payload is
  taken to be shorter than `2^31 - 1` bytes, file sizes and record ids are taken
  to stay below `2^63`, so every conversion in the source is exact.  C++ `%`
  is `Int.tmod`.
* The file system is a map from sector paths to contents.  A path is kept as
  the base directory together with the four indices that the source prints
  into it.  Directories are taken to exist (the constructors create them), so
  opening a sector file for writing succeeds.
* A loop with an early `return` is a `List.findSome?` over its index range:
  `some r` is `return r` and `none` is falling through to the next iteration.
* Console output is not modelled, except that operations which only report
  through the console return the outcome they print.
-/

namespace DiscoSim

/-- Byte strings (`std::string`). -/
abbrev Cadena := List Char

/-- Directory entry of one record (`struct RecordMetadata`). -/
structure RecordMetadata where
  idRegistro : Int
  platoIdx : Int
  superficieIdx : Int
  pistaIdx : Int
  sectorGlobalEnPista : Int
  offset : Int
  tamRegistro : Int
  ocupado : Bool
deriving DecidableEq, Repr

/-- Path of a sector file: `base/P<plato>/S<superficie>/Track<pista>/Sector<sector>.txt`. -/
structure Ruta where
  base : Cadena
  plato : Int
  superficie : Int
  pista : Int
  sector : Int
deriving DecidableEq, Repr

/-- File system: the content of each sector file, `none` when the file does not exist. -/
abbrev Archivos := Ruta → Option Cadena

/-- File system without any file. -/
def Archivos.vacio : Archivos := fun _ => none

namespace Sector

/-- Current size of the sector file, 0 when it does not exist (`Sector::obtenerTamArchivo`). -/
def obtenerTamArchivo (fs : Archivos) (r : Ruta) : Int :=
  match fs r with
  | none => 0
  | some c => (c.length : Int)

/-- Append to the sector file, creating it when absent (`Sector::escribir(datos)`). -/
def escribir (fs : Archivos) (r : Ruta) (datos : Cadena) : Archivos :=
  fun k => if k = r then some ((fs r).getD [] ++ datos) else fs k

/-- Replace the content of the sector file (`Sector::escribir(datos, true)`). -/
def sobrescribir (fs : Archivos) (r : Ruta) (datos : Cadena) : Archivos :=
  fun k => if k = r then some datos else fs k

/-- Whole content, empty when the file does not exist (`Sector::leerTodo`). -/
def leerTodo (fs : Archivos) (r : Ruta) : Cadena :=
  (fs r).getD []

/-- Read `tamano` bytes at `offset` into a buffer, terminate the buffer with a
NUL byte and build a string from the buffer as a C string, which stops at the
first NUL byte (`Sector::leer`).  Bytes that the file does not have are taken
as NUL. -/
def leer (fs : Archivos) (r : Ruta) (offset : Int) (tamano : Int) : Cadena :=
  match fs r with
  | none => []
  | some c => ((c.drop offset.toNat).take tamano.toNat).takeWhile (fun b => b != Char.ofNat 0)

end Sector

/-- The disk (`class Disco`).  `rutaPlatos` is the base path given to the
platter tree when it was built: the `Sector` objects keep the paths computed
from it, also when `rutaBaseDisco` is assigned later. -/
structure Disco where
  nombreDisco : Cadena
  numPlatos : Int
  numSuperficiesPorPlato : Int
  numPistasPorSuperficie : Int
  numSectoresPorPista : Int
  capacidadSectorBytes : Int
  rutaPlatos : Cadena
  rutaBaseDisco : Cadena
  tablaEsquema : Cadena
  diccionarioDeDatosEnRAM : List RecordMetadata
  lastPlatoWritten : Int
  lastSuperficieWritten : Int
  lastPistaWritten : Int
  lastSectorWritten : Int

/-- Sectors 0 and 1 of platter 0, surface 0, track 0 (`Disco::isReservedSector`). -/
def isReservedSector (platoIdx superficieIdx pistaIdx sectorIdx : Int) : Bool :=
  platoIdx == 0 && superficieIdx == 0 && pistaIdx == 0 && (sectorIdx == 0 || sectorIdx == 1)

namespace Disco

/-- The sector object reached by
`platos[p]->getSuperficie(s)->getPista(t)->getSector(sec)`: its path, or `none`
where an index is out of range (a null pointer in the source). -/
def getSector (d : Disco) (p s t sec : Int) : Option Ruta :=
  if 0 ≤ p ∧ p < d.numPlatos ∧ 0 ≤ s ∧ s < d.numSuperficiesPorPlato ∧
      0 ≤ t ∧ t < d.numPistasPorSuperficie ∧ 0 ≤ sec ∧ sec < d.numSectoresPorPista then
    some ⟨d.rutaPlatos, p, s, t, sec⟩
  else none

/-- Path of the reserved schema sector `P0/S0/Track0/Sector0.txt`. -/
def rutaSector0 (d : Disco) : Ruta := ⟨d.rutaBaseDisco, 0, 0, 0, 0⟩

/-- Path of the reserved directory sector `P0/S0/Track0/Sector1.txt`. -/
def rutaSector1 (d : Disco) : Ruta := ⟨d.rutaBaseDisco, 0, 0, 0, 1⟩

/-- Body of the innermost loop of `encontrarEspacioCilindrico` for one
candidate address: skip a reserved sector, skip a missing sector object, and
return the address with the current size when the record fits. -/
def probarSector (fs : Archivos) (d : Disco) (tamanoRequerido : Int)
    (current_plato current_superficie current_pista current_sector : Int) :
    Option (Int × Int × Int × Int × Int) :=
  if isReservedSector current_plato current_superficie current_pista current_sector then none
  else
    match d.getSector current_plato current_superficie current_pista current_sector with
    | none => none
    | some sectorObj =>
      let tamActual := Sector.obtenerTamArchivo fs sectorObj
      if tamActual + tamanoRequerido ≤ d.capacidadSectorBytes then
        some (current_plato, current_superficie, current_pista, current_sector, tamActual)
      else none

/-- The four nested loops of `encontrarEspacioCilindrico`: platters, then
tracks, then surfaces, then sectors, each wrapped from the cursor; the sector
scan starts at the cursor only for `t = 0` and `s = 0`. -/
def buscarEspacio (fs : Archivos) (d : Disco) (tamanoRequerido : Int) :
    Option (Int × Int × Int × Int × Int) :=
  (List.range d.numPlatos.toNat).findSome? fun (p : Nat) =>
    let current_plato := Int.tmod (d.lastPlatoWritten + (p : Int)) d.numPlatos
    (List.range d.numPistasPorSuperficie.toNat).findSome? fun (t : Nat) =>
      let current_pista := Int.tmod (d.lastPistaWritten + (t : Int)) d.numPistasPorSuperficie
      (List.range d.numSuperficiesPorPlato.toNat).findSome? fun (s : Nat) =>
        let current_superficie :=
          Int.tmod (d.lastSuperficieWritten + (s : Int)) d.numSuperficiesPorPlato
        let actual_start_sector := if t = 0 ∧ s = 0 then d.lastSectorWritten else 0
        (List.range d.numSectoresPorPista.toNat).findSome? fun (sec : Nat) =>
          let current_sector := Int.tmod (actual_start_sector + (sec : Int)) d.numSectoresPorPista
          probarSector fs d tamanoRequerido current_plato current_superficie current_pista
            current_sector

/-- Search for a sector with `tamanoRequerido` free bytes
(`Disco::encontrarEspacioCilindrico`).  Returns the tuple of the source, all
components `-1` when nothing fits, and the disk with the cursor moved to the
address found. -/
def encontrarEspacioCilindrico (fs : Archivos) (d : Disco) (tamanoRequerido : Int) :
    (Int × Int × Int × Int × Int) × Disco :=
  match buscarEspacio fs d tamanoRequerido with
  | some (p, s, t, sec, tamActual) =>
    ((p, s, t, sec, tamActual),
      { d with lastPlatoWritten := p, lastSuperficieWritten := s,
               lastPistaWritten := t, lastSectorWritten := sec })
  | none => ((-1, -1, -1, -1, -1), d)

/-- Next record id (`Disco::getNextRecordId`). -/
def getNextRecordId (d : Disco) : Int :=
  if d.diccionarioDeDatosEnRAM.isEmpty then 1
  else d.diccionarioDeDatosEnRAM.foldl
    (fun maxId rm => if rm.idRegistro > maxId then rm.idRegistro else maxId) 0 + 1

end Disco

/-! ### Text formats: printing and reading integers, splitting lines -/

/-- Decimal text of an integer, as `operator<<` and `to_string` print an `int` or `long`. -/
def to_string (n : Int) : Cadena :=
  if n < 0 then '-' :: Nat.toDigits 10 n.natAbs else Nat.toDigits 10 n.toNat

/-- All the pieces that repeated `getline(stream, piece, delim)` extracts until
it fails: the text is cut at each `delim`, and a call that extracts no byte at
the end of the text fails. -/
def getlineTodos (delim : Char) : Cadena → List Cadena
  | [] => []
  | c :: resto =>
    if c = delim then [] :: getlineTodos delim resto
    else
      match getlineTodos delim resto with
      | [] => [[c]]
      | l :: ls => (c :: l) :: ls

/-- White space skipped by `strtol` (`isspace` in the C locale). -/
def esEspacio (c : Char) : Bool :=
  c == ' ' || c == '\t' || c == '\n' || c == '\r' || c == Char.ofNat 11 || c == Char.ofNat 12

/-- Value of a run of decimal digits, most significant first. -/
def valorDigitos (ds : List Char) : Nat :=
  ds.foldl (fun acc c => 10 * acc + (c.toNat - 48)) 0

/-- Conversion done by `strtol` in base 10: skip white space, read an optional
sign and the longest run of digits; `none` when there is no digit. -/
def strtol (s : Cadena) : Option Int :=
  let s1 := s.dropWhile esEspacio
  let negativo := s1.head? == some '-'
  let s2 := if s1.head? == some '-' || s1.head? == some '+' then s1.drop 1 else s1
  let ds := s2.takeWhile Char.isDigit
  if ds.isEmpty then none
  else if negativo then some (-(valorDigitos ds : Int)) else some (valorDigitos ds : Int)

/-- Reading an `int` (`std::stoi`): `none` stands for the exception thrown when
no digit is found or the value does not fit an `int`. -/
def stoi (s : Cadena) : Option Int :=
  match strtol s with
  | none => none
  | some v => if -2147483648 ≤ v ∧ v ≤ 2147483647 then some v else none

/-- Reading a `long` (`std::stol`): `none` stands for the exception thrown. -/
def stol (s : Cadena) : Option Int :=
  match strtol s with
  | none => none
  | some v => if -9223372036854775808 ≤ v ∧ v ≤ 9223372036854775807 then some v else none

/-- Outcome of code that may throw or read a vector past its end. -/
inductive Lectura (α : Type) where
  | ok (a : α)
  | excepcion
  | indefinido

/-- The header line `CONFIG#...` written first by `persistirDiccionario`. -/
def lineaConfig (d : Disco) : Cadena :=
  ['C', 'O', 'N', 'F', 'I', 'G', '#'] ++ to_string d.numPlatos ++ ['#'] ++
    to_string d.numSuperficiesPorPlato ++ ['#'] ++ to_string d.numPistasPorSuperficie ++ ['#'] ++
    to_string d.numSectoresPorPista ++ ['#'] ++ to_string d.capacidadSectorBytes ++ ['#'] ++
    d.nombreDisco ++ ['\n']

/-- The line `R#...` written by `persistirDiccionario` for one entry. -/
def lineaRegistro (rm : RecordMetadata) : Cadena :=
  ['R', '#'] ++ to_string rm.idRegistro ++ ['#'] ++ to_string rm.platoIdx ++ ['#'] ++
    to_string rm.superficieIdx ++ ['#'] ++ to_string rm.pistaIdx ++ ['#'] ++
    to_string rm.sectorGlobalEnPista ++ ['#'] ++ to_string rm.offset ++ ['#'] ++
    to_string rm.tamRegistro ++ ['#'] ++ (if rm.ocupado then ['1'] else ['0']) ++ ['\n']

/-- One directory line read by `cargarDiccionario`: split at `#`; with fewer
than 8 pieces the line is skipped; otherwise pieces 1 to 7 are converted, which
may throw, and piece 8 is read, which is past the end when there are exactly 8
pieces. -/
def parsearLinea (linea : Cadena) : Lectura (Option RecordMetadata) :=
  let segmentos := getlineTodos '#' linea
  if segmentos.length ≥ 8 then
    match stol (segmentos.getD 1 []), stoi (segmentos.getD 2 []), stoi (segmentos.getD 3 []),
        stoi (segmentos.getD 4 []), stoi (segmentos.getD 5 []), stol (segmentos.getD 6 []),
        stoi (segmentos.getD 7 []) with
    | some id, some plato, some superficie, some pista, some sector, some off, some tam =>
      match segmentos.get? 8 with
      | none => Lectura.indefinido
      | some o =>
        Lectura.ok (some
          { idRegistro := id, platoIdx := plato, superficieIdx := superficie, pistaIdx := pista,
            sectorGlobalEnPista := sector, offset := off, tamRegistro := tam,
            ocupado := o == ['1'] })
    | _, _, _, _, _, _, _ => Lectura.excepcion
  else Lectura.ok none

/-- The `while (getline(ss, linea))` loop of `cargarDiccionario` over the lines
that follow the header, appending to the directory read so far. -/
def cargarLineas : List Cadena → List RecordMetadata → Lectura (List RecordMetadata)
  | [], acc => Lectura.ok acc
  | linea :: resto, acc =>
    if linea.isEmpty then cargarLineas resto acc
    else
      match parsearLinea linea with
      | Lectura.ok none => cargarLineas resto acc
      | Lectura.ok (some rm) => cargarLineas resto (acc ++ [rm])
      | Lectura.excepcion => Lectura.excepcion
      | Lectura.indefinido => Lectura.indefinido

/-- The text after the first occurrence of `R1#`, `none` when it does not occur
(`contenido.find("R1#")` followed by `substr(pos + 3)`). -/
def despuesDeR1 : Cadena → Option Cadena
  | [] => none
  | c :: resto =>
    if ['R', '1', '#'].isPrefixOf (c :: resto) then some ((c :: resto).drop 3)
    else despuesDeR1 resto

/-- Drop one final newline when there is one. -/
def quitarSaltoFinal (s : Cadena) : Cadena :=
  if s.getLast? = some '\n' then s.dropLast else s

namespace Disco

/-- Text written to the directory sector: the header and one line for each
entry whose `ocupado` is true, in directory order. -/
def textoDiccionario (d : Disco) : Cadena :=
  d.diccionarioDeDatosEnRAM.foldl
    (fun ss rm => if rm.ocupado then ss ++ lineaRegistro rm else ss) (lineaConfig d)

/-- Rewrite the directory sector (`Disco::persistirDiccionario`). -/
def persistirDiccionario (fs : Archivos) (d : Disco) : Archivos :=
  Sector.sobrescribir fs d.rutaSector1 d.textoDiccionario

/-- Read the directory sector into the directory in memory (`Disco::cargarDiccionario`). -/
def cargarDiccionario (fs : Archivos) (d : Disco) : Lectura Disco :=
  let contenido := Sector.leerTodo fs d.rutaSector1
  match cargarLineas ((getlineTodos '\n' contenido).drop 1) [] with
  | Lectura.ok dic => Lectura.ok { d with diccionarioDeDatosEnRAM := dic }
  | Lectura.excepcion => Lectura.excepcion
  | Lectura.indefinido => Lectura.indefinido

/-- Read the schema from the schema sector (`Disco::cargarEsquema`). -/
def cargarEsquema (fs : Archivos) (d : Disco) : Disco :=
  let contenido := Sector.leerTodo fs d.rutaSector0
  if !contenido.isEmpty then
    match despuesDeR1 contenido with
    | some resto => { d with tablaEsquema := quitarSaltoFinal resto }
    | none => { d with tablaEsquema := [] }
  else { d with tablaEsquema := [] }

/-- The constructor `Disco::Disco`: the base path is `./<nombre>_disk`, the
directory in memory is empty, the cursor is at `(0,0,0,0)`, the directory
sector is rewritten with the header, and the schema is read. -/
def nuevo (fs : Archivos) (nPlatos nSuperficies nPistas nSectores capSector : Int)
    (nombre : Cadena) : Archivos × Disco :=
  let ruta := ['.', '/'] ++ nombre ++ ['_', 'd', 'i', 's', 'k']
  let d : Disco :=
    { nombreDisco := nombre, numPlatos := nPlatos, numSuperficiesPorPlato := nSuperficies,
      numPistasPorSuperficie := nPistas, numSectoresPorPista := nSectores,
      capacidadSectorBytes := capSector, rutaPlatos := ruta, rutaBaseDisco := ruta,
      tablaEsquema := [], diccionarioDeDatosEnRAM := [],
      lastPlatoWritten := 0, lastSuperficieWritten := 0, lastPistaWritten := 0,
      lastSectorWritten := 0 }
  let fs1 := d.persistirDiccionario fs
  (fs1, d.cargarEsquema fs1)

end Disco

/-- Outcome of `Disco::cargarDisco`: a disk, a null pointer, an exception that
escapes, or a read past the end of a vector. -/
inductive Carga where
  | cargado (fs : Archivos) (d : Disco)
  | nulo
  | excepcion (fs : Archivos)
  | indefinido (fs : Archivos)

/-- Load a disk from its base path (`Disco::cargarDisco`). -/
def Disco.cargarDisco (fs : Archivos) (ruta : Cadena) : Carga :=
  match fs ⟨ruta, 0, 0, 0, 1⟩ with
  | none => Carga.nulo
  | some contenido =>
    let linea_config := contenido.takeWhile (fun c => c != '\n')
    let segmentos_config := getlineTodos '#' linea_config
    if segmentos_config.length < 7 ∨ segmentos_config.getD 0 [] ≠ ['C', 'O', 'N', 'F', 'I', 'G'] then
      Carga.nulo
    else
      match stoi (segmentos_config.getD 1 []), stoi (segmentos_config.getD 2 []),
          stoi (segmentos_config.getD 3 []), stoi (segmentos_config.getD 4 []),
          stoi (segmentos_config.getD 5 []) with
      | some nPlatos, some nSuperficies, some nPistas, some nSectores, some capSector =>
        let nombre := segmentos_config.getD 6 []
        let (fs1, disco) := Disco.nuevo fs nPlatos nSuperficies nPistas nSectores capSector nombre
        let disco1 := { disco with rutaBaseDisco := ruta }
        match disco1.cargarDiccionario fs1 with
        | Lectura.ok disco2 => Carga.cargado fs1 (disco2.cargarEsquema fs1)
        | Lectura.excepcion => Carga.excepcion fs1
        | Lectura.indefinido => Carga.indefinido fs1
      | _, _, _, _, _ => Carga.excepcion fs

/-- The directory in memory of the disk loaded, `none` when no disk is returned. -/
def Carga.diccionario : Carga → Option (List RecordMetadata)
  | Carga.cargado _ d => some d.diccionarioDeDatosEnRAM
  | _ => none

/-- The file system after the load, `none` when the load does not reach the constructor. -/
def Carga.archivos : Carga → Option Archivos
  | Carga.cargado fs _ => some fs
  | Carga.excepcion fs => some fs
  | Carga.indefinido fs => some fs
  | Carga.nulo => none

/-! ### Insert, retrieve, delete -/

/-- What `insertarRegistro` reports. -/
inductive ResultadoInsercion where
  | insertado (id : Int)
  | sinEspacio
  | sectorNoEncontrado
deriving DecidableEq, Repr

/-- What `eliminarRegistro` prints, one value per message. -/
inductive MensajeEliminar where
  | marcadoEliminado
  | yaEliminado
  | noEncontrado
deriving DecidableEq, Repr

namespace Disco

/-- Insert a record (`Disco::insertarRegistro`). -/
def insertarRegistro (fs : Archivos) (d : Disco) (datosRegistro : Cadena) :
    Archivos × Disco × ResultadoInsercion :=
  let tamanoRequerido : Int := (datosRegistro.length : Int) + 1
  match d.encontrarEspacioCilindrico fs tamanoRequerido with
  | ((platoIdx, superficieIdx, pistaIdx, sectorGlobalEnPista, offset), d1) =>
    if platoIdx = -1 then (fs, d1, ResultadoInsercion.sinEspacio)
    else
      match d1.getSector platoIdx superficieIdx pistaIdx sectorGlobalEnPista with
      | none => (fs, d1, ResultadoInsercion.sectorNoEncontrado)
      | some sectorAEscribir =>
        let fs1 := Sector.escribir fs sectorAEscribir (datosRegistro ++ ['\n'])
        let nuevoRM : RecordMetadata :=
          { idRegistro := d1.getNextRecordId, platoIdx := platoIdx,
            superficieIdx := superficieIdx, pistaIdx := pistaIdx,
            sectorGlobalEnPista := sectorGlobalEnPista, offset := offset,
            tamRegistro := tamanoRequerido, ocupado := true }
        let d2 := { d1 with diccionarioDeDatosEnRAM := d1.diccionarioDeDatosEnRAM ++ [nuevoRM] }
        (d2.persistirDiccionario fs1, d2, ResultadoInsercion.insertado nuevoRM.idRegistro)

/-- Body of the loop of `recuperarRegistro` for one entry: when the id matches,
the entry is occupied and the sector object exists, return the bytes read
without the final newline. -/
def probarRegistro (fs : Archivos) (d : Disco) (id : Int) (rm : RecordMetadata) :
    Option Cadena :=
  if rm.idRegistro = id ∧ rm.ocupado = true then
    match d.getSector rm.platoIdx rm.superficieIdx rm.pistaIdx rm.sectorGlobalEnPista with
    | some sector => some (quitarSaltoFinal (Sector.leer fs sector rm.offset rm.tamRegistro))
    | none => none
  else none

/-- Retrieve a record by id (`Disco::recuperarRegistro`); the empty string when
no occupied entry has the id. -/
def recuperarRegistro (fs : Archivos) (d : Disco) (id : Int) : Cadena :=
  (d.diccionarioDeDatosEnRAM.findSome? (d.probarRegistro fs id)).getD []

/-- The loop of `eliminarRegistro`: stop at the first entry with the id, clear
its flag when it is set.  Returns the directory, `encontrado` and the message
printed inside the loop. -/
def marcarEliminado (id : Int) :
    List RecordMetadata → List RecordMetadata × Bool × List MensajeEliminar
  | [] => ([], false, [])
  | rm :: resto =>
    if rm.idRegistro = id then
      if rm.ocupado then
        ({ rm with ocupado := false } :: resto, true, [MensajeEliminar.marcadoEliminado])
      else (rm :: resto, false, [MensajeEliminar.yaEliminado])
    else
      match marcarEliminado id resto with
      | (dic, encontrado, mensajes) => (rm :: dic, encontrado, mensajes)

/-- Delete a record by id (`Disco::eliminarRegistro`). -/
def eliminarRegistro (fs : Archivos) (d : Disco) (id : Int) :
    Archivos × Disco × List MensajeEliminar :=
  match marcarEliminado id d.diccionarioDeDatosEnRAM with
  | (dic, encontrado, mensajes) =>
    let d1 := { d with diccionarioDeDatosEnRAM := dic }
    let mensajes1 := if !encontrado then mensajes ++ [MensajeEliminar.noEncontrado] else mensajes
    (d1.persistirDiccionario fs, d1, mensajes1)

end Disco

/-! ### Sessions: sequences of inserts and deletes -/

/-- The file system together with the disk object of the session. -/
structure Sistema where
  archivos : Archivos
  disco : Disco

/-- One call made to the disk. -/
inductive Operacion where
  | insertar (datos : Cadena)
  | eliminar (id : Int)
deriving DecidableEq, Repr

namespace Sistema

/-- Creating a disk: the constructor run on a file system. -/
def crear (fs : Archivos) (nPlatos nSuperficies nPistas nSectores capSector : Int)
    (nombre : Cadena) : Sistema :=
  ⟨(Disco.nuevo fs nPlatos nSuperficies nPistas nSectores capSector nombre).1,
    (Disco.nuevo fs nPlatos nSuperficies nPistas nSectores capSector nombre).2⟩

/-- State after one call. -/
def aplicar (s : Sistema) : Operacion → Sistema
  | Operacion.insertar datos =>
    ⟨(s.disco.insertarRegistro s.archivos datos).1, (s.disco.insertarRegistro s.archivos datos).2.1⟩
  | Operacion.eliminar id =>
    ⟨(s.disco.eliminarRegistro s.archivos id).1, (s.disco.eliminarRegistro s.archivos id).2.1⟩

/-- The id given by one call: that of the record when the call is an insert that succeeds. -/
def idAsignado (s : Sistema) : Operacion → Option Int
  | Operacion.insertar datos =>
    match (s.disco.insertarRegistro s.archivos datos).2.2 with
    | ResultadoInsercion.insertado id => some id
    | _ => none
  | Operacion.eliminar _ => none

/-- State after a sequence of calls. -/
def ejecutar (s : Sistema) (ops : List Operacion) : Sistema :=
  ops.foldl aplicar s

/-- The ids given by a sequence of calls, in order. -/
def idsAsignados : Sistema → List Operacion → List Int
  | _, [] => []
  | s, op :: ops =>
    match s.idAsignado op with
    | some id => id :: idsAsignados (s.aplicar op) ops
    | none => idsAsignados (s.aplicar op) ops

end Sistema

/-! ### Vocabulary of the specification -/

/-- All four counts of the geometry are positive. -/
def GeometriaPositiva (d : Disco) : Prop :=
  0 < d.numPlatos ∧ 0 < d.numSuperficiesPorPlato ∧ 0 < d.numPistasPorSuperficie ∧
    0 < d.numSectoresPorPista

instance (d : Disco) : Decidable (GeometriaPositiva d) := by
  unfold GeometriaPositiva; infer_instance

/-- The allocation cursor addresses a sector of the geometry. -/
def CursorEnRango (d : Disco) : Prop :=
  (0 ≤ d.lastPlatoWritten ∧ d.lastPlatoWritten < d.numPlatos) ∧
  (0 ≤ d.lastSuperficieWritten ∧ d.lastSuperficieWritten < d.numSuperficiesPorPlato) ∧
  (0 ≤ d.lastPistaWritten ∧ d.lastPistaWritten < d.numPistasPorSuperficie) ∧
  (0 ≤ d.lastSectorWritten ∧ d.lastSectorWritten < d.numSectoresPorPista)

instance (d : Disco) : Decidable (CursorEnRango d) := by
  unfold CursorEnRango; infer_instance

/-- The address `(p, s, t, sec)` is within the geometry. -/
def EnRango (d : Disco) (p s t sec : Int) : Prop :=
  (0 ≤ p ∧ p < d.numPlatos) ∧ (0 ≤ s ∧ s < d.numSuperficiesPorPlato) ∧
  (0 ≤ t ∧ t < d.numPistasPorSuperficie) ∧ (0 ≤ sec ∧ sec < d.numSectoresPorPista)

instance (d : Disco) (p s t sec : Int) : Decidable (EnRango d p s t sec) := by
  unfold EnRango; infer_instance

/-- Size of the sector file at an address of the platter tree. -/
def Disco.tamSector (fs : Archivos) (d : Disco) (p s t sec : Int) : Int :=
  Sector.obtenerTamArchivo fs ⟨d.rutaPlatos, p, s, t, sec⟩

/-- The sector at the address is not reserved and has `n` free bytes. -/
def Disco.cabe (fs : Archivos) (d : Disco) (n : Int) (a : Int × Int × Int × Int) : Bool :=
  !isReservedSector a.1 a.2.1 a.2.2.1 a.2.2.2 &&
    decide (d.tamSector fs a.1 a.2.1 a.2.2.1 a.2.2.2 + n ≤ d.capacidadSectorBytes)

/-- Reference order of the specification, as `(platter, surface, track, sector)`:
platter `(p0+p) mod P` for `p = 0..P-1`, then track `(t0+t) mod T` for
`t = 0..T-1`, then surface `(s0+s) mod S` for `s = 0..S-1`, then sector
`(start+k) mod Sec` for `k = 0..Sec-1`, where `start = sec0` when `t = 0` and
`s = 0` and `start = 0` otherwise. -/
def Disco.ordenReferencia (d : Disco) : List (Int × Int × Int × Int) :=
  (List.range d.numPlatos.toNat).flatMap fun (p : Nat) =>
    (List.range d.numPistasPorSuperficie.toNat).flatMap fun (t : Nat) =>
      (List.range d.numSuperficiesPorPlato.toNat).flatMap fun (s : Nat) =>
        (List.range d.numSectoresPorPista.toNat).map fun (k : Nat) =>
          ((d.lastPlatoWritten + (p : Int)) % d.numPlatos,
            (d.lastSuperficieWritten + (s : Int)) % d.numSuperficiesPorPlato,
            (d.lastPistaWritten + (t : Int)) % d.numPistasPorSuperficie,
            ((if t = 0 ∧ s = 0 then d.lastSectorWritten else 0) + (k : Int)) %
              d.numSectoresPorPista)

/-- First fit of the specification: the first address of the reference order
that is not reserved and has `n` free bytes. -/
def Disco.primerAjuste (fs : Archivos) (d : Disco) (n : Int) : Option (Int × Int × Int × Int) :=
  d.ordenReferencia.find? (d.cabe fs n)

/-! ### Sessions: vocabulary -/

/-- The ids `1, 2, ..., n`, in order. -/
def idsDesde (n : Nat) : List Int :=
  (List.range n).map fun (i : Nat) => (i : Int) + 1

/-- State of the directory in a session that started with a new disk: the ids
are `1, 2, ...` in directory order, and every entry addresses a sector of the
geometry that is not reserved. -/
def DirectorioBienFormado (d : Disco) : Prop :=
  d.diccionarioDeDatosEnRAM.map (fun rm => rm.idRegistro) =
      idsDesde d.diccionarioDeDatosEnRAM.length ∧
    ∀ rm ∈ d.diccionarioDeDatosEnRAM,
      isReservedSector rm.platoIdx rm.superficieIdx rm.pistaIdx rm.sectorGlobalEnPista = false ∧
      EnRango d rm.platoIdx rm.superficieIdx rm.pistaIdx rm.sectorGlobalEnPista

/-- The scenario of the specification: 1 platter, 1 surface, 1 track, 3
sectors of 50 bytes, on a file system without files. -/
def ejemplo : Sistema := Sistema.crear Archivos.vacio 1 1 1 3 50 ['d']

/-- The text built by `transformarCSV_a_stringstream` from the content of the
CSV file (`none` when the file cannot be opened): every line with its commas
replaced by `#`, followed by a newline. -/
def transformarCSV_a_stringstream (csv : Option Cadena) : Cadena :=
  match csv with
  | none => []
  | some contenido =>
    (getlineTodos '\n' contenido).flatMap fun linea =>
      linea.map (fun c => if c = ',' then '#' else c) ++ ['\n']

namespace Disco

/-- The loop of `cargarCSV` over the lines after the schema: every line that is
not empty is inserted. -/
def insertarLineas : Archivos → Disco → List Cadena → Archivos × Disco
  | fs, d, [] => (fs, d)
  | fs, d, linea :: resto =>
    if !linea.isEmpty then
      insertarLineas (d.insertarRegistro fs linea).1 (d.insertarRegistro fs linea).2.1 resto
    else insertarLineas fs d resto

/-- Import of a CSV file (`Disco::cargarCSV`): the first line is stored as the
schema, `R1#` before it and a newline after it, in the schema sector and in
memory; every later line that is not empty is inserted. -/
def cargarCSV (fs : Archivos) (d : Disco) (csv : Option Cadena) : Archivos × Disco :=
  let ssCSV := transformarCSV_a_stringstream csv
  if ssCSV.isEmpty then (fs, d)
  else
    match getlineTodos '\n' ssCSV with
    | [] => (fs, d)
    | linea :: resto =>
      if linea.isEmpty then (fs, d)
      else
        let fs1 := Sector.sobrescribir fs d.rutaSector0 (['R', '1', '#'] ++ linea ++ ['\n'])
        insertarLineas fs1 { d with tablaEsquema := linea } resto

end Disco

/-- Kind of outcome of `cargarDisco`. -/
inductive ClaseCarga where
  | disco
  | nulo
  | excepcion
  | indefinido
deriving DecidableEq, Repr

/-- The kind of an outcome of `cargarDisco`. -/
def Carga.clase : Carga → ClaseCarga
  | Carga.cargado _ _ => ClaseCarga.disco
  | Carga.nulo => ClaseCarga.nulo
  | Carga.excepcion _ => ClaseCarga.excepcion
  | Carga.indefinido _ => ClaseCarga.indefinido

/-- No sector file exists under the base path. -/
def SinArchivos (fs : Archivos) (base : Cadena) : Prop :=
  ∀ p s t k : Int, fs ⟨base, p, s, t, k⟩ = none

/-- The base path `./<nombre>_disk` of a disk name. -/
def rutaDe (nombre : Cadena) : Cadena :=
  ['.', '/'] ++ nombre ++ ['_', 'd', 'i', 's', 'k']

/-- The text that stores the lines given, each followed by a newline. -/
def textoDeLineas (lineas : List Cadena) : Cadena :=
  lineas.flatMap fun linea => linea ++ ['\n']

/-- The directory line of the specification for an occupied entry:
`R#id#platter#surface#track#sector#offset#length#1`. -/
def lineaOcupado (rm : RecordMetadata) : Cadena :=
  ['R', '#'] ++ to_string rm.idRegistro ++ ['#'] ++ to_string rm.platoIdx ++ ['#'] ++
    to_string rm.superficieIdx ++ ['#'] ++ to_string rm.pistaIdx ++ ['#'] ++
    to_string rm.sectorGlobalEnPista ++ ['#'] ++ to_string rm.offset ++ ['#'] ++
    to_string rm.tamRegistro ++ ['#', '1', '\n']

/-- The content of the directory sector required by the specification: the
header line, then one line for each entry of the directory in memory whose
`ocupado` is true, in directory order. -/
def espejoDirectorio (d : Disco) : Cadena :=
  lineaConfig d ++ (d.diccionarioDeDatosEnRAM.filter fun rm => rm.ocupado).flatMap lineaOcupado

/-- The directory that the specification requires after a delete: the same
entries in the same order, the flag of the first entry with the id cleared. -/
def apagarPrimero (id : Int) (l : List RecordMetadata) : List RecordMetadata :=
  match l.findIdx? (fun rm => rm.idRegistro == id) with
  | none => l
  | some i => l.modify (fun rm => { rm with ocupado := false }) i

/-- The addresses `(platter, surface, track, sector)` that the four nested
loops of `encontrarEspacioCilindrico` compute, in the order in which they test
them when no sector fits. -/
def Disco.secuenciaExaminada (d : Disco) : List (Int × Int × Int × Int) :=
  (List.range d.numPlatos.toNat).flatMap fun (p : Nat) =>
    (List.range d.numPistasPorSuperficie.toNat).flatMap fun (t : Nat) =>
      (List.range d.numSuperficiesPorPlato.toNat).flatMap fun (s : Nat) =>
        (List.range d.numSectoresPorPista.toNat).map fun (sec : Nat) =>
          (Int.tmod (d.lastPlatoWritten + (p : Int)) d.numPlatos,
            Int.tmod (d.lastSuperficieWritten + (s : Int)) d.numSuperficiesPorPlato,
            Int.tmod (d.lastPistaWritten + (t : Int)) d.numPistasPorSuperficie,
            Int.tmod ((if t = 0 ∧ s = 0 then d.lastSectorWritten else 0) + (sec : Int))
              d.numSectoresPorPista)

/-- The cross product of the geometry: every address `(platter, surface,
track, sector)` with each index below its count, once. -/
def Disco.productoCruzado (d : Disco) : List (Int × Int × Int × Int) :=
  (List.product (List.range d.numPlatos.toNat)
    (List.product (List.range d.numSuperficiesPorPlato.toNat)
      (List.product (List.range d.numPistasPorSuperficie.toNat)
        (List.range d.numSectoresPorPista.toNat)))).map
    fun q => ((q.1 : Int), (q.2.1 : Int), (q.2.2.1 : Int), (q.2.2.2 : Int))

/-- The two inner loops of `encontrarEspacioCilindrico`, surfaces and then
sectors, for the platter of loop index `p` and the track of loop index `t`. -/
def Disco.buscarEnCilindro (fs : Archivos) (d : Disco) (tamanoRequerido : Int) (p t : Nat) :
    Option (Int × Int × Int × Int × Int) :=
  (List.range d.numSuperficiesPorPlato.toNat).findSome? fun (s : Nat) =>
    (List.range d.numSectoresPorPista.toNat).findSome? fun (sec : Nat) =>
      d.probarSector fs tamanoRequerido
        (Int.tmod (d.lastPlatoWritten + (p : Int)) d.numPlatos)
        (Int.tmod (d.lastSuperficieWritten + (s : Int)) d.numSuperficiesPorPlato)
        (Int.tmod (d.lastPistaWritten + (t : Int)) d.numPistasPorSuperficie)
        (Int.tmod ((if t = 0 ∧ s = 0 then d.lastSectorWritten else 0) + (sec : Int))
          d.numSectoresPorPista)

/-- The value fits the C++ type `int` (32 bits). -/
def EsInt (n : Int) : Prop := -2147483648 ≤ n ∧ n ≤ 2147483647

instance (n : Int) : Decidable (EsInt n) := by
  unfold EsInt; infer_instance

/-- The value fits the C++ type `long` (64 bits). -/
def EsLong (n : Int) : Prop := -9223372036854775808 ≤ n ∧ n ≤ 9223372036854775807

instance (n : Int) : Decidable (EsLong n) := by
  unfold EsLong; infer_instance

/-- The fields of the entry fit their C++ types: `long` for the id and the
offset, `int` for the others. -/
def EntradaEnTipos (rm : RecordMetadata) : Prop :=
  EsLong rm.idRegistro ∧ EsInt rm.platoIdx ∧ EsInt rm.superficieIdx ∧ EsInt rm.pistaIdx ∧
    EsInt rm.sectorGlobalEnPista ∧ EsLong rm.offset ∧ EsInt rm.tamRegistro

instance (rm : RecordMetadata) : Decidable (EntradaEnTipos rm) := by
  unfold EntradaEnTipos; infer_instance

/-- The fields joined with `#` between them. -/
def unirCampos : List Cadena → Cadena
  | [] => []
  | [a] => a
  | a :: b :: resto => a ++ '#' :: unirCampos (b :: resto)

/-- The fields of the header line of the specification:
`CONFIG`, the four counts of the geometry, the sector capacity and the name. -/
def camposConfig (d : Disco) : List Cadena :=
  [['C', 'O', 'N', 'F', 'I', 'G'], to_string d.numPlatos, to_string d.numSuperficiesPorPlato,
    to_string d.numPistasPorSuperficie, to_string d.numSectoresPorPista,
    to_string d.capacidadSectorBytes, d.nombreDisco]

/-- The fields of the directory line of the specification for an occupied
entry: `R`, id, platter, surface, track, sector, offset, length and `1`. -/
def camposOcupado (rm : RecordMetadata) : List Cadena :=
  [['R'], to_string rm.idRegistro, to_string rm.platoIdx, to_string rm.superficieIdx,
    to_string rm.pistaIdx, to_string rm.sectorGlobalEnPista, to_string rm.offset,
    to_string rm.tamRegistro, ['1']]

/-- The disk returned by `cargarDisco`, `none` when no disk is returned. -/
def Carga.discoCargado : Carga → Option Disco
  | Carga.cargado _ d => some d
  | _ => none

/-! ### Example states -/

/-- The scenario after the insert of `A#1` and the delete of id 1. -/
def ejemploBorrado : Sistema :=
  ejemplo.ejecutar [Operacion.insertar ['A', '#', '1'], Operacion.eliminar 1]

/-- A file system whose only file is the directory sector under `ruta`, with the text given. -/
def archivosCon (ruta : Cadena) (texto : String) : Archivos :=
  Sector.sobrescribir Archivos.vacio ⟨ruta, 0, 0, 0, 1⟩ texto.toList

/-! ## Theorems -/

/-! ### The allocation search -/

/-- What a successful test of one candidate address returns. -/
theorem probarSector_eq_some {fs : Archivos} {d : Disco} {n p s t k : Int}
    {r : Int × Int × Int × Int × Int} (h : d.probarSector fs n p s t k = some r) :
    r = (p, s, t, k, d.tamSector fs p s t k) ∧ isReservedSector p s t k = false ∧
      EnRango d p s t k ∧ d.tamSector fs p s t k + n ≤ d.capacidadSectorBytes := by
  unfold Disco.probarSector at h
  cases hr : isReservedSector p s t k with
  | true => simp [hr] at h
  | false =>
    by_cases hb : 0 ≤ p ∧ p < d.numPlatos ∧ 0 ≤ s ∧ s < d.numSuperficiesPorPlato ∧
        0 ≤ t ∧ t < d.numPistasPorSuperficie ∧ 0 ≤ k ∧ k < d.numSectoresPorPista
    · by_cases hc : Sector.obtenerTamArchivo fs ⟨d.rutaPlatos, p, s, t, k⟩ + n
          ≤ d.capacidadSectorBytes
      · simp only [hr, Disco.getSector, if_pos hb, if_pos hc, Option.some.injEq] at h
        refine ⟨by simpa [Disco.tamSector] using h.symm, rfl, ?_, hc⟩
        unfold EnRango
        tauto
      · simp [hr, Disco.getSector, if_pos hb, if_neg hc] at h
    · simp [hr, Disco.getSector, if_neg hb] at h

/-- The test of one candidate address in terms of the vocabulary of the specification. -/
theorem probarSector_eq_ite {fs : Archivos} {d : Disco} {n p s t k : Int}
    (hb : EnRango d p s t k) :
    d.probarSector fs n p s t k =
      if d.cabe fs n (p, s, t, k) = true then some (p, s, t, k, d.tamSector fs p s t k)
      else none := by
  unfold EnRango at hb
  have hg : d.getSector p s t k = some ⟨d.rutaPlatos, p, s, t, k⟩ := by
    unfold Disco.getSector
    rw [if_pos (by tauto)]
  unfold Disco.probarSector Disco.cabe
  by_cases hr : isReservedSector p s t k = true
  · simp [hr]
  · simp [hr, hg, Disco.tamSector]

/-- A placement found by the loops comes from the test of some candidate address. -/
theorem buscarEspacio_eq_some {fs : Archivos} {d : Disco} {n : Int}
    {r : Int × Int × Int × Int × Int} (h : d.buscarEspacio fs n = some r) :
    ∃ p s t k : Int, d.probarSector fs n p s t k = some r := by
  unfold Disco.buscarEspacio at h
  obtain ⟨p, -, h⟩ := List.exists_of_findSome?_eq_some h
  obtain ⟨t, -, h⟩ := List.exists_of_findSome?_eq_some h
  obtain ⟨s, -, h⟩ := List.exists_of_findSome?_eq_some h
  obtain ⟨k, -, h⟩ := List.exists_of_findSome?_eq_some h
  exact ⟨_, _, _, _, h⟩

/-- The search either fails, leaving the disk as it was, or returns a tested
address and moves the cursor there. -/
theorem encontrarEspacioCilindrico_cases (fs : Archivos) (d : Disco) (n : Int) :
    (d.buscarEspacio fs n = none ∧
      d.encontrarEspacioCilindrico fs n = ((-1, -1, -1, -1, -1), d)) ∨
    (∃ p s t k : Int,
      d.buscarEspacio fs n = some (p, s, t, k, d.tamSector fs p s t k) ∧
      d.probarSector fs n p s t k = some (p, s, t, k, d.tamSector fs p s t k) ∧
      d.encontrarEspacioCilindrico fs n =
        ((p, s, t, k, d.tamSector fs p s t k),
          { d with lastPlatoWritten := p, lastSuperficieWritten := s,
                   lastPistaWritten := t, lastSectorWritten := k })) := by
  cases hb : d.buscarEspacio fs n with
  | none => left; simp [Disco.encontrarEspacioCilindrico, hb]
  | some r =>
    right
    obtain ⟨p, s, t, k, hp⟩ := buscarEspacio_eq_some hb
    have hr := (probarSector_eq_some hp).1
    subst hr
    exact ⟨p, s, t, k, rfl, hp, by simp [Disco.encontrarEspacioCilindrico, hb]⟩

/-- C4 (reserved exclusion): for every geometry, cursor, sector contents and
required length, the address returned by `encontrarEspacioCilindrico` is neither
`(0,0,0,0)` nor `(0,0,0,1)`, whichever sectors have room. -/
theorem C4_reserved_exclusion (fs : Archivos) (d : Disco) (n : Int) :
    ∀ off : Int, (d.encontrarEspacioCilindrico fs n).1 ≠ (0, 0, 0, 0, off) ∧
      (d.encontrarEspacioCilindrico fs n).1 ≠ (0, 0, 0, 1, off) := by
  intro off
  rcases encontrarEspacioCilindrico_cases fs d n with ⟨-, h⟩ | ⟨p, s, t, k, -, hp, h⟩
  · rw [h]; simp
  · rw [h]
    have hr := (probarSector_eq_some hp).2.1
    constructor
    · intro he
      simp only [Prod.mk.injEq] at he
      obtain ⟨rfl, rfl, rfl, rfl, -⟩ := he
      simp [isReservedSector] at hr
    · intro he
      simp only [Prod.mk.injEq] at he
      obtain ⟨rfl, rfl, rfl, rfl, -⟩ := he
      simp [isReservedSector] at hr

/-- C7 (search soundness): a placement `(p,s,t,sec,off)` returned by
`encontrarEspacioCilindrico` is within the geometry, is not reserved, has
`size + n ≤ capacity`, `off` is the current size of that sector, and the disk
returned is the old one with the cursor at `(p,s,t,sec)`.  This holds for every
geometry and cursor, those with positive counts and a cursor in bounds included. -/
theorem C7_search_soundness (fs : Archivos) (d d1 : Disco) (n p s t sec off : Int)
    (h : d.encontrarEspacioCilindrico fs n = ((p, s, t, sec, off), d1)) (hp : p ≠ -1) :
    EnRango d p s t sec ∧ isReservedSector p s t sec = false ∧
      d.tamSector fs p s t sec + n ≤ d.capacidadSectorBytes ∧
      off = d.tamSector fs p s t sec ∧
      d1 = { d with lastPlatoWritten := p, lastSuperficieWritten := s,
                    lastPistaWritten := t, lastSectorWritten := sec } := by
  rcases encontrarEspacioCilindrico_cases fs d n with ⟨-, h1⟩ | ⟨p1, s1, t1, k1, -, hp1, h1⟩
  · rw [h1] at h
    simp only [Prod.mk.injEq] at h
    exact absurd h.1.1.symm hp
  · rw [h1] at h
    simp only [Prod.mk.injEq] at h
    obtain ⟨⟨rfl, rfl, rfl, rfl, rfl⟩, rfl⟩ := h
    obtain ⟨-, hr, hb, hc⟩ := probarSector_eq_some hp1
    exact ⟨hb, hr, hc, rfl, rfl⟩

/-- C7 applied: on the disk of `ejemplo` a search for 4 bytes returns `(0,0,0,2)` at offset 0. -/
theorem C7_search_soundness_witness :
    EnRango ejemplo.disco 0 0 0 2 ∧ isReservedSector 0 0 0 2 = false ∧
      ejemplo.disco.tamSector ejemplo.archivos 0 0 0 2 + 4 ≤ ejemplo.disco.capacidadSectorBytes ∧
      (0 : Int) = ejemplo.disco.tamSector ejemplo.archivos 0 0 0 2 ∧
      (ejemplo.disco.encontrarEspacioCilindrico ejemplo.archivos 4).2 =
        { ejemplo.disco with
          lastPlatoWritten := 0, lastSuperficieWritten := 0, lastPistaWritten := 0,
          lastSectorWritten := 2 } :=
  C7_search_soundness ejemplo.archivos ejemplo.disco _ 4 0 0 0 2 0 rfl (by decide)

/-- Two scans agree when their bodies agree on every index of the range. -/
theorem findSome?_congr_mem {α β : Type} {l : List α} {f g : α → Option β}
    (h : ∀ x ∈ l, f x = g x) : l.findSome? f = l.findSome? g := by
  induction l with
  | nil => rfl
  | cons a l ih =>
    simp only [List.findSome?_cons, h a (List.mem_cons_self _ _)]
    rw [ih (fun x hx => h x (List.mem_cons_of_mem _ hx))]

/-- A scan of nested ranges is a scan of the flattened sequence. -/
theorem findSome?_flatMap_eq {α β γ : Type} (l : List α) (f : α → List β) (g : β → Option γ) :
    (l.flatMap f).findSome? g = l.findSome? (fun x => (f x).findSome? g) := by
  induction l with
  | nil => rfl
  | cons a l ih =>
    simp only [List.flatMap_cons, List.findSome?_append, List.findSome?_cons, ih]
    cases (f a).findSome? g <;> simp

/-- A scan that returns at the first element passing a test is `find?`. -/
theorem findSome?_ite_eq_map_find? {α β : Type} (l : List α) (q : α → Bool) (h : α → β) :
    l.findSome? (fun a => if q a = true then some (h a) else none) = (l.find? q).map h := by
  induction l with
  | nil => rfl
  | cons a l ih =>
    simp only [List.findSome?_cons, List.find?_cons]
    cases q a <;> simp [ih]

/-- The C++ remainder of a wrapped index is the mathematical one and is in range. -/
theorem tmod_indice {a N : Int} (i : Nat) (ha : 0 ≤ a) (hN : 0 < N) :
    Int.tmod (a + i) N = (a + i) % N ∧ 0 ≤ (a + i) % N ∧ (a + i) % N < N := by
  refine ⟨Int.tmod_eq_emod (by omega) (by omega), Int.emod_nonneg _ (by omega),
    Int.emod_lt_of_pos _ hN⟩

/-- The loops of the search visit the reference order and return its first fit. -/
theorem buscarEspacio_eq_primerAjuste (fs : Archivos) (d : Disco) (n : Int)
    (hg : GeometriaPositiva d) (hc : CursorEnRango d) :
    d.buscarEspacio fs n =
      (d.primerAjuste fs n).map
        (fun a => (a.1, a.2.1, a.2.2.1, a.2.2.2, d.tamSector fs a.1 a.2.1 a.2.2.1 a.2.2.2)) := by
  obtain ⟨hP, hS, hT, hK⟩ := hg
  obtain ⟨⟨cp, -⟩, ⟨cs, -⟩, ⟨ct, -⟩, ⟨ck, -⟩⟩ := hc
  unfold Disco.primerAjuste Disco.ordenReferencia Disco.buscarEspacio
  rw [← findSome?_ite_eq_map_find?, findSome?_flatMap_eq]
  apply findSome?_congr_mem
  intro p _
  rw [findSome?_flatMap_eq]
  apply findSome?_congr_mem
  intro t _
  rw [findSome?_flatMap_eq]
  apply findSome?_congr_mem
  intro s _
  rw [List.findSome?_map]
  apply findSome?_congr_mem
  intro k _
  have hstart : 0 ≤ (if t = 0 ∧ s = 0 then d.lastSectorWritten else 0) := by
    split <;> omega
  obtain ⟨ep, bp⟩ := tmod_indice p cp hP
  obtain ⟨es, bs⟩ := tmod_indice s cs hS
  obtain ⟨et, bt⟩ := tmod_indice t ct hT
  obtain ⟨ek, bk⟩ := tmod_indice k hstart hK
  simp only [Function.comp, ep, es, et, ek]
  exact probarSector_eq_ite ⟨bp, bs, bt, bk⟩

/-- Every index of a range is reached by wrapping from a start that is not negative. -/
theorem existe_indice (a : Int) {N q : Int} (hq : 0 ≤ q) (hqN : q < N) :
    ∃ i : Nat, i ∈ List.range N.toNat ∧ (a + (i : Int)) % N = q := by
  have hN : 0 < N := by omega
  have h0 : 0 ≤ (q - a) % N := Int.emod_nonneg _ (by omega)
  have h1 : (q - a) % N < N := Int.emod_lt_of_pos _ hN
  refine ⟨((q - a) % N).toNat, ?_, ?_⟩
  · rw [List.mem_range]; omega
  · rw [Int.toNat_of_nonneg h0, Int.add_emod, Int.emod_emod, ← Int.add_emod]
    have : a + (q - a) = q := by omega
    rw [this]
    exact Int.emod_eq_of_lt hq hqN

/-- The reference order consists of the addresses of the geometry. -/
theorem mem_ordenReferencia (d : Disco) (hg : GeometriaPositiva d) (hc : CursorEnRango d)
    (p s t k : Int) : (p, s, t, k) ∈ d.ordenReferencia ↔ EnRango d p s t k := by
  obtain ⟨hP, hS, hT, hK⟩ := hg
  obtain ⟨⟨cp, -⟩, ⟨cs, -⟩, ⟨ct, -⟩, ⟨ck, -⟩⟩ := hc
  unfold Disco.ordenReferencia EnRango
  simp only [List.mem_flatMap, List.mem_map, Prod.mk.injEq]
  constructor
  · rintro ⟨ip, -, it, -, is, -, ik, -, rfl, rfl, rfl, rfl⟩
    have hstart : 0 ≤ (if it = 0 ∧ is = 0 then d.lastSectorWritten else 0) := by
      split <;> omega
    exact ⟨(tmod_indice ip cp hP).2, (tmod_indice is cs hS).2, (tmod_indice it ct hT).2,
      (tmod_indice ik hstart hK).2⟩
  · rintro ⟨⟨p0, p1⟩, ⟨s0, s1⟩, ⟨t0, t1⟩, ⟨k0, k1⟩⟩
    obtain ⟨ip, mp, ep⟩ := existe_indice d.lastPlatoWritten p0 p1
    obtain ⟨is, ms, es⟩ := existe_indice d.lastSuperficieWritten s0 s1
    obtain ⟨it, mt, et⟩ := existe_indice d.lastPistaWritten t0 t1
    obtain ⟨ik, mk, ek⟩ :=
      existe_indice (if it = 0 ∧ is = 0 then d.lastSectorWritten else 0) k0 k1
    exact ⟨ip, mp, it, mt, is, ms, ik, mk, ep, es, et, ek⟩

/-- C8 (search completeness): on a geometry with positive counts and a cursor
in bounds, `encontrarEspacioCilindrico` returns `-1` in every component exactly
when no address of the geometry that is not reserved has `size + n ≤ capacity`;
a sector with room is found wherever it lies relative to the cursor. -/
theorem C8_search_completeness (fs : Archivos) (d : Disco) (n : Int)
    (hg : GeometriaPositiva d) (hc : CursorEnRango d) :
    (d.encontrarEspacioCilindrico fs n).1 = (-1, -1, -1, -1, -1) ↔
      ∀ p s t k : Int, EnRango d p s t k → isReservedSector p s t k = false →
        ¬ (d.tamSector fs p s t k + n ≤ d.capacidadSectorBytes) := by
  have hnone : (d.encontrarEspacioCilindrico fs n).1 = (-1, -1, -1, -1, -1) ↔
      d.buscarEspacio fs n = none := by
    rcases encontrarEspacioCilindrico_cases fs d n with ⟨hb, h⟩ | ⟨p, s, t, k, hb, hp, h⟩
    · rw [h]; simp [hb]
    · rw [h, hb]
      have hr := (probarSector_eq_some hp).2.2.1.1.1
      constructor
      · intro he
        simp only [Prod.mk.injEq] at he
        omega
      · intro he
        simp at he
  rw [hnone, buscarEspacio_eq_primerAjuste fs d n hg hc, Option.map_eq_none']
  unfold Disco.primerAjuste
  rw [List.find?_eq_none]
  constructor
  · intro h p s t k hb hr hfit
    apply h (p, s, t, k) ((mem_ordenReferencia d hg hc p s t k).2 hb)
    simp [Disco.cabe, hr, hfit]
  · rintro h ⟨p, s, t, k⟩ hm hcabe
    have hb := (mem_ordenReferencia d hg hc p s t k).1 hm
    simp only [Disco.cabe, Bool.and_eq_true, Bool.not_eq_true', decide_eq_true_eq] at hcabe
    exact h p s t k hb hcabe.1 hcabe.2

/-- C8 applied: on the disk of `ejemplo` a search for 60 bytes fails exactly
when no sector that is not reserved has 60 free bytes. -/
theorem C8_search_completeness_witness :
    (ejemplo.disco.encontrarEspacioCilindrico ejemplo.archivos 60).1 = (-1, -1, -1, -1, -1) ↔
      ∀ p s t k : Int, EnRango ejemplo.disco p s t k → isReservedSector p s t k = false →
        ¬ (ejemplo.disco.tamSector ejemplo.archivos p s t k + 60 ≤
          ejemplo.disco.capacidadSectorBytes) :=
  C8_search_completeness ejemplo.archivos ejemplo.disco 60 (by decide) (by decide)

/-- C9 (first fit in cylindrical order): on a geometry with positive counts and
a cursor in bounds, `encontrarEspacioCilindrico` returns the first address of
the reference order that is not reserved and has `size + n ≤ capacity`, with
the current size of that sector as offset, and `-1` in every component when the
reference order has no such address. -/
theorem C9_first_fit (fs : Archivos) (d : Disco) (n : Int)
    (hg : GeometriaPositiva d) (hc : CursorEnRango d) :
    (d.encontrarEspacioCilindrico fs n).1 =
      match d.primerAjuste fs n with
      | some (p, s, t, k) => (p, s, t, k, d.tamSector fs p s t k)
      | none => (-1, -1, -1, -1, -1) := by
  unfold Disco.encontrarEspacioCilindrico
  rw [buscarEspacio_eq_primerAjuste fs d n hg hc]
  cases d.primerAjuste fs n with
  | none => rfl
  | some a => rfl

/-- C9 applied: on the 2×2×2×3 disk with the cursor at `(1,1,1,2)`, a search for 4 bytes. -/
theorem C9_first_fit_witness :
    ({ (Sistema.crear Archivos.vacio 2 2 2 3 50 ['d']).disco with
          lastPlatoWritten := 1, lastSuperficieWritten := 1, lastPistaWritten := 1,
          lastSectorWritten := 2 }.encontrarEspacioCilindrico
        (Sistema.crear Archivos.vacio 2 2 2 3 50 ['d']).archivos 4).1 =
      match { (Sistema.crear Archivos.vacio 2 2 2 3 50 ['d']).disco with
          lastPlatoWritten := 1, lastSuperficieWritten := 1, lastPistaWritten := 1,
          lastSectorWritten := 2 }.primerAjuste
          (Sistema.crear Archivos.vacio 2 2 2 3 50 ['d']).archivos 4 with
      | some (p, s, t, k) =>
        (p, s, t, k, (Sistema.crear Archivos.vacio 2 2 2 3 50 ['d']).disco.tamSector
          (Sistema.crear Archivos.vacio 2 2 2 3 50 ['d']).archivos p s t k)
      | none => (-1, -1, -1, -1, -1) :=
  C9_first_fit _ _ 4 (by decide) (by decide)

/-! ### Insert -/

/-- What `insertarRegistro` does: without a placement nothing changes; with a
placement the record and a newline are appended to the sector found, one entry
is appended to the directory, the cursor moves, and the directory sector is
rewritten. -/
theorem insertarRegistro_cases (fs : Archivos) (d : Disco) (x : Cadena) :
    (d.buscarEspacio fs ((x.length : Int) + 1) = none ∧
      d.insertarRegistro fs x = (fs, d, ResultadoInsercion.sinEspacio)) ∨
    (∃ p s t k : Int, EnRango d p s t k ∧ isReservedSector p s t k = false ∧
      d.tamSector fs p s t k + ((x.length : Int) + 1) ≤ d.capacidadSectorBytes ∧
      d.buscarEspacio fs ((x.length : Int) + 1) = some (p, s, t, k, d.tamSector fs p s t k) ∧
      (d.insertarRegistro fs x).2.2 = ResultadoInsercion.insertado d.getNextRecordId ∧
      (d.insertarRegistro fs x).2.1 =
        { d with
          lastPlatoWritten := p, lastSuperficieWritten := s, lastPistaWritten := t,
          lastSectorWritten := k,
          diccionarioDeDatosEnRAM := d.diccionarioDeDatosEnRAM ++
            [{ idRegistro := d.getNextRecordId, platoIdx := p, superficieIdx := s,
               pistaIdx := t, sectorGlobalEnPista := k, offset := d.tamSector fs p s t k,
               tamRegistro := (x.length : Int) + 1, ocupado := true }] } ∧
      (d.insertarRegistro fs x).1 =
        (d.insertarRegistro fs x).2.1.persistirDiccionario
          (Sector.escribir fs ⟨d.rutaPlatos, p, s, t, k⟩ (x ++ ['\n']))) := by
  rcases encontrarEspacioCilindrico_cases fs d ((x.length : Int) + 1) with
    ⟨hb, h⟩ | ⟨p, s, t, k, hb, hp, h⟩
  · left
    refine ⟨hb, ?_⟩
    unfold Disco.insertarRegistro
    simp only [h]
    rfl
  · right
    obtain ⟨-, hr, hrange, hfit⟩ := probarSector_eq_some hp
    have hne : p ≠ -1 := by
      have := hrange.1.1
      omega
    have hcond : 0 ≤ p ∧ p < d.numPlatos ∧ 0 ≤ s ∧ s < d.numSuperficiesPorPlato ∧
        0 ≤ t ∧ t < d.numPistasPorSuperficie ∧ 0 ≤ k ∧ k < d.numSectoresPorPista := by
      unfold EnRango at hrange
      tauto
    refine ⟨p, s, t, k, hrange, hr, hfit, hb, ?_, ?_, ?_⟩ <;>
    · unfold Disco.insertarRegistro
      simp only [h, if_neg hne, Disco.getSector, if_pos hcond] <;> rfl

/-- C6 (a failed insert changes nothing): when `insertarRegistro` reports that
there is no space, the file system (every sector file, data and reserved) and
the disk object (directory in memory and cursor included) are the ones before
the call. -/
theorem C6_failed_insert_atomic (fs : Archivos) (d : Disco) (x : Cadena)
    (h : (d.insertarRegistro fs x).2.2 = ResultadoInsercion.sinEspacio) :
    (d.insertarRegistro fs x).1 = fs ∧ (d.insertarRegistro fs x).2.1 = d := by
  rcases insertarRegistro_cases fs d x with ⟨-, h1⟩ | ⟨p, s, t, k, -, -, -, -, h1, -⟩
  · rw [h1]; exact ⟨rfl, rfl⟩
  · rw [h1] at h
    cases h

/-- C6 applied: the insert of a 60-byte payload on the disk of `ejemplo` fails
and leaves the file system and the disk as they were. -/
theorem C6_failed_insert_atomic_witness :
    (ejemplo.disco.insertarRegistro ejemplo.archivos (List.replicate 60 'a')).1 =
        ejemplo.archivos ∧
      (ejemplo.disco.insertarRegistro ejemplo.archivos (List.replicate 60 'a')).2.1 =
        ejemplo.disco :=
  C6_failed_insert_atomic ejemplo.archivos ejemplo.disco (List.replicate 60 'a') (by decide)

/-! ### Record ids -/

/-- The ids up to `n + 1` are those up to `n` followed by `n + 1`. -/
theorem idsDesde_succ (n : Nat) : idsDesde (n + 1) = idsDesde n ++ [(n : Int) + 1] := by
  simp [idsDesde, List.range_succ]

/-- The loop of `getNextRecordId` over the ids `1, ..., n` ends with `n`. -/
theorem foldl_maxId_idsDesde (n : Nat) :
    (idsDesde n).foldl (fun maxId id => if id > maxId then id else maxId) 0 = (n : Int) := by
  induction n with
  | zero => rfl
  | succ n ih =>
    rw [idsDesde_succ, List.foldl_append, ih]
    simp

/-- The maximum of the ids `1, ..., n`, and 0 when there is none, is `n`. -/
theorem foldl_max_idsDesde (n : Nat) : (idsDesde n).foldl max 0 = (n : Int) := by
  induction n with
  | zero => rfl
  | succ n ih =>
    rw [idsDesde_succ, List.foldl_append, ih]
    simp

/-- The ids `1, ..., n` are pairwise distinct. -/
theorem idsDesde_nodup (n : Nat) : (idsDesde n).Nodup := by
  unfold idsDesde
  apply List.Nodup.map _ (List.nodup_range n)
  intro a b h
  simp only at h
  omega

/-- With ids `1, ..., n` in the directory, the next id is `n + 1`. -/
theorem getNextRecordId_eq (d : Disco)
    (h : d.diccionarioDeDatosEnRAM.map (fun rm => rm.idRegistro) =
      idsDesde d.diccionarioDeDatosEnRAM.length) :
    d.getNextRecordId = (d.diccionarioDeDatosEnRAM.length : Int) + 1 := by
  unfold Disco.getNextRecordId
  cases hd : d.diccionarioDeDatosEnRAM with
  | nil => rfl
  | cons rm l =>
    have hf : ∀ (l : List RecordMetadata) (a : Int),
        l.foldl (fun maxId rm => if rm.idRegistro > maxId then rm.idRegistro else maxId) a =
          (l.map (fun rm => rm.idRegistro)).foldl
            (fun maxId id => if id > maxId then id else maxId) a := by
      intro l
      induction l with
      | nil => intro a; rfl
      | cons b l ih => intro a; simp only [List.foldl_cons, List.map_cons, ih]
    rw [hd] at h
    simp only [List.isEmpty_cons, Bool.false_eq_true, if_false]
    rw [hf, h, foldl_maxId_idsDesde]

/-! ### Delete -/

/-- The loop of `eliminarRegistro` keeps the ids of the directory, in order. -/
theorem marcarEliminado_map_id (id : Int) (l : List RecordMetadata) :
    (Disco.marcarEliminado id l).1.map (fun rm => rm.idRegistro) =
      l.map (fun rm => rm.idRegistro) := by
  induction l with
  | nil => rfl
  | cons rm l ih =>
    unfold Disco.marcarEliminado
    by_cases h1 : rm.idRegistro = id
    · by_cases h2 : rm.ocupado = true
      · simp [h1, h2]
      · simp [h1, h2]
    · simp only [if_neg h1, List.map_cons, ih]

/-- The loop of `eliminarRegistro` keeps the number of entries. -/
theorem marcarEliminado_length (id : Int) (l : List RecordMetadata) :
    (Disco.marcarEliminado id l).1.length = l.length := by
  have := congrArg List.length (marcarEliminado_map_id id l)
  simpa using this

/-- Every entry after the loop of `eliminarRegistro` is an entry from before,
with the same id, address, offset and length; it is the very same entry unless
it has the id given. -/
theorem mem_marcarEliminado {id : Int} {l : List RecordMetadata} {rm1 : RecordMetadata}
    (h : rm1 ∈ (Disco.marcarEliminado id l).1) :
    ∃ rm ∈ l, rm1 = { rm with ocupado := rm1.ocupado } ∧ (rm1 = rm ∨ rm.idRegistro = id) := by
  induction l with
  | nil => simp [Disco.marcarEliminado] at h
  | cons a l ih =>
    unfold Disco.marcarEliminado at h
    by_cases h1 : a.idRegistro = id
    · by_cases h2 : a.ocupado = true
      · simp only [if_pos h1, if_pos h2, List.mem_cons] at h
        rcases h with h | h
        · subst h
          exact ⟨a, List.mem_cons_self _ _, rfl, Or.inr h1⟩
        · exact ⟨rm1, List.mem_cons_of_mem _ h, rfl, Or.inl rfl⟩
      · simp only [if_pos h1, if_neg h2, List.mem_cons] at h
        rcases h with h | h
        · subst h
          exact ⟨rm1, List.mem_cons_self _ _, rfl, Or.inl rfl⟩
        · exact ⟨rm1, List.mem_cons_of_mem _ h, rfl, Or.inl rfl⟩
    · simp only [if_neg h1, List.mem_cons] at h
      rcases h with h | h
      · subst h
        exact ⟨rm1, List.mem_cons_self _ _, rfl, Or.inl rfl⟩
      · obtain ⟨rm, hm, e1, e2⟩ := ih h
        exact ⟨rm, List.mem_cons_of_mem _ hm, e1, e2⟩

/-- The disk that `eliminarRegistro` leaves: only the directory in memory changes. -/
theorem eliminarRegistro_disco (fs : Archivos) (d : Disco) (id : Int) :
    (d.eliminarRegistro fs id).2.1 =
      { d with diccionarioDeDatosEnRAM := (Disco.marcarEliminado id d.diccionarioDeDatosEnRAM).1 } :=
  rfl

/-- The file system that `eliminarRegistro` leaves: only the directory sector is rewritten. -/
theorem eliminarRegistro_archivos (fs : Archivos) (d : Disco) (id : Int) :
    (d.eliminarRegistro fs id).1 = (d.eliminarRegistro fs id).2.1.persistirDiccionario fs :=
  rfl

/-! ### The directory in a session -/

/-- A new disk has a well-formed directory. -/
theorem bienFormado_nuevo (fs : Archivos) (nPlatos nSuperficies nPistas nSectores capSector : Int)
    (nombre : Cadena) :
    DirectorioBienFormado
      (Disco.nuevo fs nPlatos nSuperficies nPistas nSectores capSector nombre).2 := by
  have h : (Disco.nuevo fs nPlatos nSuperficies nPistas nSectores capSector
      nombre).2.diccionarioDeDatosEnRAM = [] := by
    simp only [Disco.nuevo, Disco.cargarEsquema]
    split
    · split <;> rfl
    · rfl
  unfold DirectorioBienFormado
  rw [h]
  exact ⟨rfl, by simp⟩

/-- An insert keeps the directory well formed. -/
theorem bienFormado_insertar (fs : Archivos) (d : Disco) (x : Cadena)
    (h : DirectorioBienFormado d) : DirectorioBienFormado (d.insertarRegistro fs x).2.1 := by
  rcases insertarRegistro_cases fs d x with ⟨-, h1⟩ | ⟨p, s, t, k, hb, hr, -, -, -, h1, -⟩
  · rw [h1]; exact h
  · rw [h1]
    obtain ⟨hid, hall⟩ := h
    refine ⟨?_, ?_⟩
    · simp only [List.map_append, List.map_cons, List.map_nil, List.length_append,
        List.length_singleton, idsDesde_succ, hid, getNextRecordId_eq d hid]
    · intro rm hm
      simp only [List.mem_append, List.mem_singleton] at hm
      rcases hm with hm | hm
      · exact hall rm hm
      · subst hm
        exact ⟨hr, hb⟩

/-- A delete keeps the directory well formed. -/
theorem bienFormado_eliminar (fs : Archivos) (d : Disco) (id : Int)
    (h : DirectorioBienFormado d) : DirectorioBienFormado (d.eliminarRegistro fs id).2.1 := by
  rw [eliminarRegistro_disco]
  obtain ⟨hid, hall⟩ := h
  refine ⟨?_, ?_⟩
  · simp only [marcarEliminado_map_id, marcarEliminado_length, hid]
  · intro rm1 hm
    obtain ⟨rm, hm0, e, -⟩ := mem_marcarEliminado hm
    have := hall rm hm0
    rw [e]
    exact this

/-- Every call keeps the directory well formed. -/
theorem bienFormado_aplicar (s : Sistema) (op : Operacion)
    (h : DirectorioBienFormado s.disco) : DirectorioBienFormado (s.aplicar op).disco := by
  cases op with
  | insertar x => exact bienFormado_insertar s.archivos s.disco x h
  | eliminar id => exact bienFormado_eliminar s.archivos s.disco id h

/-- A sequence of calls keeps the directory well formed. -/
theorem bienFormado_ejecutar (ops : List Operacion) (s : Sistema)
    (h : DirectorioBienFormado s.disco) : DirectorioBienFormado (s.ejecutar ops).disco := by
  induction ops generalizing s with
  | nil => exact h
  | cons op ops ih => exact ih (s.aplicar op) (bienFormado_aplicar s op h)

/-- In a session the directory is well formed after every sequence of calls. -/
theorem bienFormado_sesion (fs : Archivos)
    (nPlatos nSuperficies nPistas nSectores capSector : Int) (nombre : Cadena)
    (ops : List Operacion) :
    DirectorioBienFormado
      ((Sistema.crear fs nPlatos nSuperficies nPistas nSectores capSector nombre).ejecutar
        ops).disco :=
  bienFormado_ejecutar ops _ (bienFormado_nuevo fs nPlatos nSuperficies nPistas nSectores
    capSector nombre)

/-- A call either gives no id and keeps the number of entries, or gives the id
that follows the number of entries and adds one entry. -/
theorem idAsignado_cases (s : Sistema) (op : Operacion) (h : DirectorioBienFormado s.disco) :
    (s.idAsignado op = none ∧
      (s.aplicar op).disco.diccionarioDeDatosEnRAM.length =
        s.disco.diccionarioDeDatosEnRAM.length) ∨
    (s.idAsignado op = some ((s.disco.diccionarioDeDatosEnRAM.length : Int) + 1) ∧
      (s.aplicar op).disco.diccionarioDeDatosEnRAM.length =
        s.disco.diccionarioDeDatosEnRAM.length + 1) := by
  cases op with
  | insertar x =>
    rcases insertarRegistro_cases s.archivos s.disco x with
      ⟨-, h1⟩ | ⟨p, s1, t, k, -, -, -, -, h2, h1, -⟩
    · left
      simp only [Sistema.idAsignado, Sistema.aplicar, h1, and_self]
    · right
      simp only [Sistema.idAsignado, Sistema.aplicar, h1, h2, getNextRecordId_eq s.disco h.1,
        List.length_append, List.length_singleton, and_self]
  | eliminar id =>
    left
    refine ⟨rfl, ?_⟩
    simp only [Sistema.aplicar, eliminarRegistro_disco, marcarEliminado_length]

/-- The ids given in a session continue the ids of the directory. -/
theorem idsAsignados_eq (ops : List Operacion) (s : Sistema)
    (h : DirectorioBienFormado s.disco) :
    ∃ k : Nat, s.idsAsignados ops =
      (List.range k).map fun (i : Nat) =>
        (s.disco.diccionarioDeDatosEnRAM.length : Int) + (i : Int) + 1 := by
  induction ops generalizing s with
  | nil => exact ⟨0, rfl⟩
  | cons op ops ih =>
    obtain ⟨k, hk⟩ := ih (s.aplicar op) (bienFormado_aplicar s op h)
    rcases idAsignado_cases s op h with ⟨h1, h2⟩ | ⟨h1, h2⟩
    · refine ⟨k, ?_⟩
      simp only [Sistema.idsAsignados, h1, hk, h2]
    · refine ⟨k + 1, ?_⟩
      simp only [Sistema.idsAsignados, h1, hk, h2, List.range_succ_eq_map, List.map_cons,
        List.map_map]
      congr 1
      · simp
        intro a _
        omega

/-- C3 (monotonic ids): in a session that starts with a new disk, for every
sequence of inserts and deletes, each id given by an insert is 1 plus the
maximum of the ids given earlier (1 when there is none), and no id is given
twice. -/
theorem C3_monotonic_ids (fs : Archivos)
    (nPlatos nSuperficies nPistas nSectores capSector : Int) (nombre : Cadena)
    (ops : List Operacion) :
    (∀ (k : Nat) (id : Int), ((Sistema.crear fs nPlatos nSuperficies nPistas nSectores capSector
          nombre).idsAsignados ops).get? k = some id →
        id = 1 + (((Sistema.crear fs nPlatos nSuperficies nPistas nSectores capSector
          nombre).idsAsignados ops).take k).foldl max 0) ∧
      ((Sistema.crear fs nPlatos nSuperficies nPistas nSectores capSector
          nombre).idsAsignados ops).Nodup := by
  obtain ⟨n, hn⟩ := idsAsignados_eq ops
    (Sistema.crear fs nPlatos nSuperficies nPistas nSectores capSector nombre)
    (bienFormado_nuevo fs nPlatos nSuperficies nPistas nSectores capSector nombre)
  have h0 : (Sistema.crear fs nPlatos nSuperficies nPistas nSectores capSector
      nombre).disco.diccionarioDeDatosEnRAM.length = 0 := by
    simp only [Sistema.crear, Disco.nuevo, Disco.cargarEsquema]
    split
    · split <;> rfl
    · rfl
  have hids : (Sistema.crear fs nPlatos nSuperficies nPistas nSectores capSector
      nombre).idsAsignados ops = idsDesde n := by
    rw [hn, h0]
    unfold idsDesde
    apply List.map_congr_left
    intro i _
    simp
  rw [hids]
  refine ⟨?_, idsDesde_nodup n⟩
  intro k id hk
  have hlt : k < n := by
    have := List.get?_eq_some.1 hk
    obtain ⟨hl, -⟩ := this
    simpa [idsDesde] using hl
  have htake : (idsDesde n).take k = idsDesde k := by
    unfold idsDesde
    rw [← List.map_take, List.take_range]
    congr 2
    omega
  rw [htake, foldl_max_idsDesde]
  have : (idsDesde n).get? k = some ((k : Int) + 1) := by
    unfold idsDesde
    simp [List.getElem?_range, hlt]
  rw [this] at hk
  simp only [Option.some.injEq] at hk
  omega

/-- C3 applied: the ids given by insert, delete of 1, insert, failed insert, insert. -/
theorem C3_monotonic_ids_witness :
    ((Sistema.crear Archivos.vacio 1 1 1 3 50 ['d']).idsAsignados
      [Operacion.insertar ['A', '#', '1'], Operacion.eliminar 1,
        Operacion.insertar ['B', '#', '2'], Operacion.insertar (List.replicate 60 'a'),
        Operacion.insertar ['c']]).Nodup :=
  (C3_monotonic_ids Archivos.vacio 1 1 1 3 50 ['d']
    [Operacion.insertar ['A', '#', '1'], Operacion.eliminar 1,
      Operacion.insertar ['B', '#', '2'], Operacion.insertar (List.replicate 60 'a'),
      Operacion.insertar ['c']]).2

/-! ### Reading records back -/

/-- A sector that is not reserved is not the directory sector of any base path. -/
theorem persistirDiccionario_otro (fs : Archivos) (d : Disco) (b : Cadena) (p s t k : Int)
    (hr : isReservedSector p s t k = false) :
    d.persistirDiccionario fs ⟨b, p, s, t, k⟩ = fs ⟨b, p, s, t, k⟩ := by
  unfold Disco.persistirDiccionario Sector.sobrescribir Disco.rutaSector1
  rw [if_neg]
  intro he
  simp only [Ruta.mk.injEq] at he
  obtain ⟨-, rfl, rfl, rfl, rfl⟩ := he
  simp [isReservedSector] at hr

/-- After the loop of `eliminarRegistro` over entries with pairwise distinct
ids, no entry with the id is occupied. -/
theorem marcarEliminado_no_ocupado (i : Int) (l : List RecordMetadata)
    (hnd : (l.map fun rm => rm.idRegistro).Nodup) :
    ∀ rm1 ∈ (Disco.marcarEliminado i l).1, rm1.idRegistro = i → rm1.ocupado = false := by
  induction l with
  | nil => simp [Disco.marcarEliminado]
  | cons a l ih =>
    rw [List.map_cons, List.nodup_cons] at hnd
    have htail : a.idRegistro = i → ∀ rm1 ∈ l, rm1.idRegistro = i → rm1.ocupado = false := by
      intro ha rm1 hm h1
      exact absurd (List.mem_map_of_mem (fun rm => rm.idRegistro) hm) (by
        simp only [h1, ← ha]
        exact hnd.1)
    intro rm1 hm h1
    unfold Disco.marcarEliminado at hm
    by_cases ha : a.idRegistro = i
    · by_cases ho : a.ocupado = true
      · simp only [if_pos ha, if_pos ho, List.mem_cons] at hm
        rcases hm with hm | hm
        · rw [hm]
        · exact htail ha rm1 hm h1
      · simp only [if_pos ha, if_neg ho, List.mem_cons] at hm
        rcases hm with hm | hm
        · rw [hm]
          simpa using ho
        · exact htail ha rm1 hm h1
    · simp only [if_neg ha, List.mem_cons] at hm
      rcases hm with hm | hm
      · rw [hm] at h1
        exact absurd h1 ha
      · exact ih hnd.2 rm1 hm h1

/-- The loop of `eliminarRegistro` for id `i` does not change what a scan
finds, when the scans before and after agree on every entry of the directory
and stop at no entry with id `i`. -/
theorem findSome?_marcarEliminado (i : Int)
    (g1 g : RecordMetadata → Option Cadena) (l : List RecordMetadata)
    (hg : ∀ rm ∈ l, g1 rm = g rm)
    (hi : ∀ rm : RecordMetadata, rm.idRegistro = i → g rm = none ∧ g1 rm = none) :
    (Disco.marcarEliminado i l).1.findSome? g1 = l.findSome? g := by
  induction l with
  | nil => rfl
  | cons a l ih =>
    have htail : l.findSome? g1 = l.findSome? g :=
      findSome?_congr_mem fun rm hm => hg rm (List.mem_cons_of_mem _ hm)
    unfold Disco.marcarEliminado
    by_cases ha : a.idRegistro = i
    · by_cases ho : a.ocupado = true
      · simp only [if_pos ha, if_pos ho, List.findSome?_cons, (hi a ha).1,
          (hi { a with ocupado := false } ha).2, htail]
      · simp only [if_pos ha, if_neg ho, List.findSome?_cons, (hi a ha).1, (hi a ha).2, htail]
    · simp only [if_neg ha, List.findSome?_cons, hg a (List.mem_cons_self _ _),
        ih fun rm hm => hg rm (List.mem_cons_of_mem _ hm)]

/-- C10 (a delete hides exactly one record): in a session that starts with a
new disk, after `eliminarRegistro(i)`, `recuperarRegistro(i)` returns the empty
result that stands for not found, and for every other id `j`,
`recuperarRegistro(j)` returns what it returned before the delete.  This holds
for every id `i`, one whose entry is occupied included. -/
theorem C10_delete_hides_one (fs : Archivos)
    (nPlatos nSuperficies nPistas nSectores capSector : Int) (nombre : Cadena)
    (ops : List Operacion) (i : Int) :
    ((((Sistema.crear fs nPlatos nSuperficies nPistas nSectores capSector nombre).ejecutar
        ops).aplicar (Operacion.eliminar i)).disco.recuperarRegistro
      (((Sistema.crear fs nPlatos nSuperficies nPistas nSectores capSector nombre).ejecutar
        ops).aplicar (Operacion.eliminar i)).archivos i = []) ∧
    ∀ j : Int, j ≠ i →
      (((Sistema.crear fs nPlatos nSuperficies nPistas nSectores capSector nombre).ejecutar
          ops).aplicar (Operacion.eliminar i)).disco.recuperarRegistro
        (((Sistema.crear fs nPlatos nSuperficies nPistas nSectores capSector nombre).ejecutar
          ops).aplicar (Operacion.eliminar i)).archivos j =
      ((Sistema.crear fs nPlatos nSuperficies nPistas nSectores capSector nombre).ejecutar
          ops).disco.recuperarRegistro
        ((Sistema.crear fs nPlatos nSuperficies nPistas nSectores capSector nombre).ejecutar
          ops).archivos j := by
  have hb := bienFormado_sesion fs nPlatos nSuperficies nPistas nSectores capSector nombre ops
  generalize (Sistema.crear fs nPlatos nSuperficies nPistas nSectores capSector nombre).ejecutar
    ops = s at hb ⊢
  obtain ⟨hids, hall⟩ := hb
  have hnd : (s.disco.diccionarioDeDatosEnRAM.map fun rm => rm.idRegistro).Nodup := by
    rw [hids]; exact idsDesde_nodup _
  constructor
  · simp only [Sistema.aplicar, Disco.recuperarRegistro, eliminarRegistro_disco]
    rw [List.findSome?_eq_none_iff.2]
    · rfl
    · intro rm1 hm
      unfold Disco.probarRegistro
      rw [if_neg]
      rintro ⟨h1, h2⟩
      have := marcarEliminado_no_ocupado i _ hnd rm1 hm h1
      rw [this] at h2
      cases h2
  · intro j hj
    simp only [Sistema.aplicar, Disco.recuperarRegistro, eliminarRegistro_disco,
      eliminarRegistro_archivos]
    rw [findSome?_marcarEliminado i _ (s.disco.probarRegistro s.archivos j)]
    · intro rm hm
      obtain ⟨hr, -⟩ := hall rm hm
      unfold Disco.probarRegistro Disco.getSector
      by_cases hcond : 0 ≤ rm.platoIdx ∧ rm.platoIdx < s.disco.numPlatos ∧
          0 ≤ rm.superficieIdx ∧ rm.superficieIdx < s.disco.numSuperficiesPorPlato ∧
          0 ≤ rm.pistaIdx ∧ rm.pistaIdx < s.disco.numPistasPorSuperficie ∧
          0 ≤ rm.sectorGlobalEnPista ∧ rm.sectorGlobalEnPista < s.disco.numSectoresPorPista
      · simp only [if_pos hcond, Sector.leer, persistirDiccionario_otro _ _ _ _ _ _ _ hr]
      · simp only [if_neg hcond]
    · intro rm hi
      have hne : ¬ (rm.idRegistro = j ∧ rm.ocupado = true) := by
        rintro ⟨h1, -⟩
        exact hj (h1.symm.trans hi)
      exact ⟨by unfold Disco.probarRegistro; rw [if_neg hne],
        by unfold Disco.probarRegistro; rw [if_neg hne]⟩

/-- C10 applied: in the scenario, after the inserts of `A#1` and `B#2` and the
delete of id 1, `recuperarRegistro(2)` returns what it returned before. -/
theorem C10_delete_hides_one_witness :
    (((Sistema.crear Archivos.vacio 1 1 1 3 50 ['d']).ejecutar
          [Operacion.insertar ['A', '#', '1'], Operacion.insertar ['B', '#', '2']]).aplicar
          (Operacion.eliminar 1)).disco.recuperarRegistro
        (((Sistema.crear Archivos.vacio 1 1 1 3 50 ['d']).ejecutar
          [Operacion.insertar ['A', '#', '1'], Operacion.insertar ['B', '#', '2']]).aplicar
          (Operacion.eliminar 1)).archivos 2 =
      ((Sistema.crear Archivos.vacio 1 1 1 3 50 ['d']).ejecutar
          [Operacion.insertar ['A', '#', '1'],
            Operacion.insertar ['B', '#', '2']]).disco.recuperarRegistro
        ((Sistema.crear Archivos.vacio 1 1 1 3 50 ['d']).ejecutar
          [Operacion.insertar ['A', '#', '1'], Operacion.insertar ['B', '#', '2']]).archivos 2 :=
  (C10_delete_hides_one Archivos.vacio 1 1 1 3 50 ['d']
    [Operacion.insertar ['A', '#', '1'], Operacion.insertar ['B', '#', '2']] 1).2 2 (by decide)

/-! ### Loading a disk -/

/-- C2 at a failing input: the disk `d` of the scenario is created and `A#1` is
inserted, so the directory in memory and the directory sector hold one
occupied entry; `cargarDisco` on the base path `./d_disk` then returns a disk
whose directory in memory is empty, and the directory sector holds the header
only: the constructor called by `cargarDisco` has rewritten it before
`cargarDiccionario` reads it. -/
theorem C2_cargarDisco_pierde_directorio :
    (ejemplo.aplicar (Operacion.insertar ['A', '#', '1'])).disco.diccionarioDeDatosEnRAM =
        [{ idRegistro := 1, platoIdx := 0, superficieIdx := 0, pistaIdx := 0,
           sectorGlobalEnPista := 2, offset := 0, tamRegistro := 4, ocupado := true }] ∧
      (ejemplo.aplicar (Operacion.insertar ['A', '#', '1'])).archivos
          ⟨String.toList "./d_disk", 0, 0, 0, 1⟩ =
        some (String.toList "CONFIG#1#1#1#3#50#d\nR#1#0#0#0#2#0#4#1\n") ∧
      (Disco.cargarDisco (ejemplo.aplicar (Operacion.insertar ['A', '#', '1'])).archivos
          (String.toList "./d_disk")).diccionario = some [] ∧
      ((Disco.cargarDisco (ejemplo.aplicar (Operacion.insertar ['A', '#', '1'])).archivos
          (String.toList "./d_disk")).archivos.bind
            fun fs => fs ⟨String.toList "./d_disk", 0, 0, 0, 1⟩) =
        some (String.toList "CONFIG#1#1#1#3#50#d\n") := by
  decide

/-- C13 (header validation on load): when the first line of the directory
sector splits at `#` into fewer than 7 fields, or its first field is not
`CONFIG`, `cargarDisco` returns the null pointer: it stops before the
constructor, so no disk is built and no sector is written. -/
theorem C13_header_validation (fs : Archivos) (ruta contenido : Cadena)
    (hfile : fs ⟨ruta, 0, 0, 0, 1⟩ = some contenido)
    (hbad : (getlineTodos '#' (contenido.takeWhile fun c => c != '\n')).length < 7 ∨
      (getlineTodos '#' (contenido.takeWhile fun c => c != '\n')).head? ≠
        some ['C', 'O', 'N', 'F', 'I', 'G']) :
    Disco.cargarDisco fs ruta = Carga.nulo := by
  unfold Disco.cargarDisco
  rw [hfile]
  simp only
  rw [if_pos]
  rcases hbad with h | h
  · exact Or.inl h
  · cases hs : getlineTodos '#' (contenido.takeWhile fun c => c != '\n') with
    | nil => left; simp
    | cons a l =>
      right
      rw [hs] at h
      simpa using h

/-- C13 applied: a header with 3 fields, and a header whose first field is `CONFIX`. -/
theorem C13_header_validation_witness :
    Disco.cargarDisco (archivosCon (String.toList "./x_disk") "CONFIG#1#1\n")
        (String.toList "./x_disk") = Carga.nulo ∧
      Disco.cargarDisco (archivosCon (String.toList "./x_disk") "CONFIX#1#1#1#3#50#d\n")
        (String.toList "./x_disk") = Carga.nulo :=
  ⟨C13_header_validation _ _ (String.toList "CONFIG#1#1\n") rfl (Or.inl (by decide)),
    C13_header_validation _ _ (String.toList "CONFIX#1#1#1#3#50#d\n") rfl (Or.inr (by decide))⟩

/-- C15 at two failing inputs: with the header `CONFIG#x#1#1#3#50#d` the
conversion of the field `x` by `stoi` throws and the exception leaves
`cargarDisco`; with a directory line of exactly 8 fields, `cargarDiccionario`
reads `segmentos[8]`, one past the end of the vector. -/
theorem C15_cargarDisco_lanza :
    (Disco.cargarDisco (archivosCon (String.toList "./d_disk") "CONFIG#x#1#1#3#50#d\n")
        (String.toList "./d_disk")).clase = ClaseCarga.excepcion ∧
      (Disco.cargarDisco
        (archivosCon (String.toList "./x_disk") "CONFIG#1#1#1#3#50#d\nR#1#0#0#0#2#0#4\n")
        (String.toList "./x_disk")).clase = ClaseCarga.indefinido := by
  decide

/-- C11 at a failing input: in the scenario, after the insert of `A#1` and the
delete of id 1, a second `eliminarRegistro(1)` prints that the record is
already deleted and then also that it was not found; the directory in memory
is unchanged. -/
theorem C11_eliminar_dos_mensajes :
    (ejemploBorrado.disco.eliminarRegistro ejemploBorrado.archivos 1).2.2 =
        [MensajeEliminar.yaEliminado, MensajeEliminar.noEncontrado] ∧
      (ejemploBorrado.disco.eliminarRegistro
          ejemploBorrado.archivos 1).2.1.diccionarioDeDatosEnRAM =
        ejemploBorrado.disco.diccionarioDeDatosEnRAM := by
  decide

/-- C14 as stated fails: the directory sector holds a valid header, the line
`X#junk` (two fields, tag `X`) and a well-formed line.  Under `./d_disk`, the
path the header names, `cargarDisco` returns a disk; under another path it
returns a disk whose directory is built from the remaining line. -/
theorem C14_malformed_line_counterexample :
    (getlineTodos '#' (String.toList "X#junk")).length = 2 ∧
      (Disco.cargarDisco
        (archivosCon (String.toList "./d_disk")
          "CONFIG#1#1#1#3#50#d\nX#junk\nR#1#0#0#0#2#0#4#1\n")
        (String.toList "./d_disk")).clase = ClaseCarga.disco ∧
      (Disco.cargarDisco
        (archivosCon (String.toList "./x_disk")
          "CONFIG#1#1#1#3#50#d\nX#junk\nR#1#0#0#0#2#0#4#1\n")
        (String.toList "./x_disk")).diccionario =
        some [{ idRegistro := 1, platoIdx := 0, superficieIdx := 0, pistaIdx := 0,
                sectorGlobalEnPista := 2, offset := 0, tamRegistro := 4, ocupado := true }] := by
  decide

/-! ### The persisted directory -/

/-- For an occupied entry the line written is the line of the specification. -/
theorem lineaRegistro_ocupado (rm : RecordMetadata) (h : rm.ocupado = true) :
    lineaRegistro rm = lineaOcupado rm := by
  simp [lineaRegistro, lineaOcupado, h]

/-- The loop of `persistirDiccionario` appends the lines of the occupied entries. -/
theorem foldl_lineas (l : List RecordMetadata) (acc : Cadena) :
    l.foldl (fun ss rm => if rm.ocupado then ss ++ lineaRegistro rm else ss) acc =
      acc ++ (l.filter fun rm => rm.ocupado).flatMap lineaOcupado := by
  induction l generalizing acc with
  | nil => simp
  | cons a l ih =>
    rw [List.foldl_cons, ih]
    cases h : a.ocupado with
    | true => simp [List.filter_cons, h, lineaRegistro_ocupado a h]
    | false => simp [List.filter_cons, h]

/-- The text written by `persistirDiccionario` is the text of the specification. -/
theorem textoDiccionario_eq_espejo (d : Disco) : d.textoDiccionario = espejoDirectorio d := by
  unfold Disco.textoDiccionario espejoDirectorio
  exact foldl_lineas _ _

/-- After `persistirDiccionario` the directory sector holds the text written. -/
theorem persistirDiccionario_sector1 (fs : Archivos) (d : Disco) :
    d.persistirDiccionario fs d.rutaSector1 = some d.textoDiccionario := by
  simp [Disco.persistirDiccionario, Sector.sobrescribir]

/-- `cargarEsquema` changes the schema in memory and nothing else. -/
theorem cargarEsquema_eq (fs : Archivos) (d : Disco) :
    ∃ e : Cadena, d.cargarEsquema fs = { d with tablaEsquema := e } := by
  unfold Disco.cargarEsquema
  simp only
  split
  · split
    · exact ⟨_, rfl⟩
    · exact ⟨_, rfl⟩
  · exact ⟨_, rfl⟩

/-- After the constructor the directory sector mirrors the directory in memory. -/
theorem espejo_nuevo (fs : Archivos) (nPlatos nSuperficies nPistas nSectores capSector : Int)
    (nombre : Cadena) :
    (Disco.nuevo fs nPlatos nSuperficies nPistas nSectores capSector nombre).1
        (Disco.nuevo fs nPlatos nSuperficies nPistas nSectores capSector nombre).2.rutaSector1 =
      some (espejoDirectorio
        (Disco.nuevo fs nPlatos nSuperficies nPistas nSectores capSector nombre).2) := by
  simp only [Disco.nuevo]
  obtain ⟨e, he⟩ := cargarEsquema_eq
    (Disco.persistirDiccionario fs
      { nombreDisco := nombre, numPlatos := nPlatos, numSuperficiesPorPlato := nSuperficies,
        numPistasPorSuperficie := nPistas, numSectoresPorPista := nSectores,
        capacidadSectorBytes := capSector,
        rutaPlatos := ['.', '/'] ++ nombre ++ ['_', 'd', 'i', 's', 'k'],
        rutaBaseDisco := ['.', '/'] ++ nombre ++ ['_', 'd', 'i', 's', 'k'],
        tablaEsquema := [], diccionarioDeDatosEnRAM := [],
        lastPlatoWritten := 0, lastSuperficieWritten := 0, lastPistaWritten := 0,
        lastSectorWritten := 0 })
    { nombreDisco := nombre, numPlatos := nPlatos, numSuperficiesPorPlato := nSuperficies,
      numPistasPorSuperficie := nPistas, numSectoresPorPista := nSectores,
      capacidadSectorBytes := capSector,
      rutaPlatos := ['.', '/'] ++ nombre ++ ['_', 'd', 'i', 's', 'k'],
      rutaBaseDisco := ['.', '/'] ++ nombre ++ ['_', 'd', 'i', 's', 'k'],
      tablaEsquema := [], diccionarioDeDatosEnRAM := [],
      lastPlatoWritten := 0, lastSuperficieWritten := 0, lastPistaWritten := 0,
      lastSectorWritten := 0 }
  rw [he]
  exact (persistirDiccionario_sector1 fs _).trans (congrArg some (textoDiccionario_eq_espejo _))

/-- Every call keeps the directory sector a mirror of the directory in memory. -/
theorem espejo_aplicar (s : Sistema) (op : Operacion)
    (h : s.archivos s.disco.rutaSector1 = some (espejoDirectorio s.disco)) :
    (s.aplicar op).archivos (s.aplicar op).disco.rutaSector1 =
      some (espejoDirectorio (s.aplicar op).disco) := by
  cases op with
  | insertar x =>
    rcases insertarRegistro_cases s.archivos s.disco x with
      ⟨-, h1⟩ | ⟨p, s1, t, k, -, -, -, -, -, -, h4⟩
    · simp only [Sistema.aplicar, h1]
      exact h
    · simp only [Sistema.aplicar]
      rw [h4, persistirDiccionario_sector1, textoDiccionario_eq_espejo]
  | eliminar id =>
    simp only [Sistema.aplicar]
    rw [eliminarRegistro_archivos, persistirDiccionario_sector1, textoDiccionario_eq_espejo]

/-- C16 (the persisted directory mirrors the occupied entries): in a session
that starts with a new disk, after the constructor and after every sequence of
inserts and deletes, the directory sector holds the header line followed by one
line `R#id#platter#surface#track#sector#offset#length#1` for each entry of the
directory in memory whose `ocupado` is true, in directory order, and no other
line. -/
theorem C16_persisted_mirror (fs : Archivos)
    (nPlatos nSuperficies nPistas nSectores capSector : Int) (nombre : Cadena)
    (ops : List Operacion) :
    ((Sistema.crear fs nPlatos nSuperficies nPistas nSectores capSector nombre).ejecutar
        ops).archivos
      ((Sistema.crear fs nPlatos nSuperficies nPistas nSectores capSector nombre).ejecutar
        ops).disco.rutaSector1 =
    some (espejoDirectorio
      ((Sistema.crear fs nPlatos nSuperficies nPistas nSectores capSector nombre).ejecutar
        ops).disco) := by
  have h0 := espejo_nuevo fs nPlatos nSuperficies nPistas nSectores capSector nombre
  have hgen : ∀ (ops : List Operacion) (s : Sistema),
      s.archivos s.disco.rutaSector1 = some (espejoDirectorio s.disco) →
      (s.ejecutar ops).archivos (s.ejecutar ops).disco.rutaSector1 =
        some (espejoDirectorio (s.ejecutar ops).disco) := by
    intro ops
    induction ops with
    | nil => intro s h; exact h
    | cons op ops ih => intro s h; exact ih (s.aplicar op) (espejo_aplicar s op h)
  exact hgen ops _ h0

/-! ### What a successful insert changes -/

/-- A scan of a range returns at the first index whose body returns. -/
theorem findSome?_range_primero {β : Type} {f : Nat → Option β} {n k : Nat} {v : β}
    (hk : k < n) (hnone : ∀ i < k, f i = none) (hv : f k = some v) :
    (List.range n).findSome? f = some v := by
  induction n with
  | zero => omega
  | succ n ih =>
    rw [List.range_succ, List.findSome?_append]
    by_cases hkn : k < n
    · rw [ih hkn]; rfl
    · have hkeq : k = n := by omega
      subst hkeq
      have : (List.range k).findSome? f = none := by
        rw [List.findSome?_eq_none_iff]
        intro i hi
        exact hnone i (List.mem_range.1 hi)
      rw [this]
      simp [hv]

/-- With the cursor at `(0,0,0,c)`, `c` being 0 or 2, at least 3 sectors per
track and room in sector `(0,0,0,2)`, the search returns `(0,0,0,2)`. -/
theorem buscarEspacio_sector2 (fs : Archivos) (d : Disco) (n c : Int)
    (hP : 0 < d.numPlatos) (hS : 0 < d.numSuperficiesPorPlato)
    (hT : 0 < d.numPistasPorSuperficie) (hK : 3 ≤ d.numSectoresPorPista)
    (hcp : d.lastPlatoWritten = 0) (hcs : d.lastSuperficieWritten = 0)
    (hct : d.lastPistaWritten = 0) (hck : d.lastSectorWritten = c) (hc : c = 0 ∨ c = 2)
    (hfit : d.tamSector fs 0 0 0 2 + n ≤ d.capacidadSectorBytes) :
    d.buscarEspacio fs n = some (0, 0, 0, 2, d.tamSector fs 0 0 0 2) := by
  have hz : ∀ N : Int, 0 < N → Int.tmod (0 + ((0 : Nat) : Int)) N = 0 := by
    intro N _
    simp
  have hsec : ∀ j : Nat, (j : Int) ≤ 2 - c →
      Int.tmod (c + (j : Int)) d.numSectoresPorPista = c + (j : Int) := by
    intro j hj
    rw [Int.tmod_eq_emod (by omega) (by omega)]
    exact Int.emod_eq_of_lt (by omega) (by omega)
  have hrange : EnRango d 0 0 0 2 := by
    unfold EnRango
    omega
  have hprobar : d.probarSector fs n 0 0 0 2 = some (0, 0, 0, 2, d.tamSector fs 0 0 0 2) := by
    rw [probarSector_eq_ite hrange, if_pos]
    simp [Disco.cabe, isReservedSector, hfit]
  unfold Disco.buscarEspacio
  apply findSome?_range_primero (k := 0) (by omega) (by intro i hi; omega)
  simp only [hcp, hz _ hP]
  apply findSome?_range_primero (k := 0) (by omega) (by intro i hi; omega)
  simp only [hct, hz _ hT]
  apply findSome?_range_primero (k := 0) (by omega) (by intro i hi; omega)
  simp only [hcs, hz _ hS, and_self, if_true, hck]
  apply findSome?_range_primero (k := (2 - c).toNat) (by omega)
  · intro i hi
    rw [hsec i (by omega)]
    have hi2 : c + (i : Int) = 0 ∨ c + (i : Int) = 1 := by omega
    rcases hi2 with h | h <;> rw [h] <;> simp [Disco.probarSector, isReservedSector]
  · rw [hsec _ (by omega)]
    have : c + (((2 - c).toNat : Nat) : Int) = 2 := by omega
    rw [this]
    exact hprobar

/-- Under the conditions of `buscarEspacio_sector2`, an insert lands in sector
`(0,0,0,2)` at the current size of its file. -/
theorem insertarRegistro_sector2 (fs : Archivos) (d : Disco) (x : Cadena) (c : Int)
    (hP : 0 < d.numPlatos) (hS : 0 < d.numSuperficiesPorPlato)
    (hT : 0 < d.numPistasPorSuperficie) (hK : 3 ≤ d.numSectoresPorPista)
    (hcp : d.lastPlatoWritten = 0) (hcs : d.lastSuperficieWritten = 0)
    (hct : d.lastPistaWritten = 0) (hck : d.lastSectorWritten = c) (hc : c = 0 ∨ c = 2)
    (hfit : d.tamSector fs 0 0 0 2 + ((x.length : Int) + 1) ≤ d.capacidadSectorBytes) :
    (d.insertarRegistro fs x).2.2 = ResultadoInsercion.insertado d.getNextRecordId ∧
      (d.insertarRegistro fs x).2.1 =
        { d with
          lastPlatoWritten := 0, lastSuperficieWritten := 0, lastPistaWritten := 0,
          lastSectorWritten := 2,
          diccionarioDeDatosEnRAM := d.diccionarioDeDatosEnRAM ++
            [{ idRegistro := d.getNextRecordId, platoIdx := 0, superficieIdx := 0,
               pistaIdx := 0, sectorGlobalEnPista := 2, offset := d.tamSector fs 0 0 0 2,
               tamRegistro := (x.length : Int) + 1, ocupado := true }] } ∧
      (d.insertarRegistro fs x).1 ⟨d.rutaPlatos, 0, 0, 0, 2⟩ =
        some ((fs ⟨d.rutaPlatos, 0, 0, 0, 2⟩).getD [] ++ x ++ ['\n']) := by
  have hb := buscarEspacio_sector2 fs d _ c hP hS hT hK hcp hcs hct hck hc hfit
  rcases insertarRegistro_cases fs d x with
    ⟨hnone, -⟩ | ⟨p0, s0, t0, k0, -, hr, -, hsome, h2, h3, h4⟩
  · rw [hnone] at hb
    cases hb
  · rw [hsome] at hb
    simp only [Option.some.injEq, Prod.mk.injEq] at hb
    obtain ⟨rfl, rfl, rfl, rfl, -⟩ := hb
    refine ⟨h2, h3, ?_⟩
    rw [h4, persistirDiccionario_otro _ _ _ _ _ _ _ hr]
    simp [Sector.escribir]

/-- The state that the constructor leaves: the geometry and the name given, the
base path `./<nombre>_disk`, an empty directory, the cursor at `(0,0,0,0)`, and
every sector file other than the directory sector as it was. -/
theorem crear_campos (fs : Archivos) (nPlatos nSuperficies nPistas nSectores capSector : Int)
    (nombre : Cadena) :
    (∃ e : Cadena,
      (Sistema.crear fs nPlatos nSuperficies nPistas nSectores capSector nombre).disco =
        { nombreDisco := nombre, numPlatos := nPlatos, numSuperficiesPorPlato := nSuperficies,
          numPistasPorSuperficie := nPistas, numSectoresPorPista := nSectores,
          capacidadSectorBytes := capSector, rutaPlatos := rutaDe nombre,
          rutaBaseDisco := rutaDe nombre, tablaEsquema := e, diccionarioDeDatosEnRAM := [],
          lastPlatoWritten := 0, lastSuperficieWritten := 0, lastPistaWritten := 0,
          lastSectorWritten := 0 }) ∧
      ∀ r : Ruta, r ≠ ⟨rutaDe nombre, 0, 0, 0, 1⟩ →
        (Sistema.crear fs nPlatos nSuperficies nPistas nSectores capSector nombre).archivos r =
          fs r := by
  constructor
  · obtain ⟨e, he⟩ := cargarEsquema_eq
      (Sistema.crear fs nPlatos nSuperficies nPistas nSectores capSector nombre).archivos
      { nombreDisco := nombre, numPlatos := nPlatos, numSuperficiesPorPlato := nSuperficies,
        numPistasPorSuperficie := nPistas, numSectoresPorPista := nSectores,
        capacidadSectorBytes := capSector, rutaPlatos := rutaDe nombre,
        rutaBaseDisco := rutaDe nombre, tablaEsquema := [], diccionarioDeDatosEnRAM := [],
        lastPlatoWritten := 0, lastSuperficieWritten := 0, lastPistaWritten := 0,
        lastSectorWritten := 0 }
    exact ⟨e, he⟩
  · intro r hr
    simp only [Sistema.crear, Disco.nuevo, Disco.persistirDiccionario, Sector.sobrescribir,
      Disco.rutaSector1]
    rw [if_neg]
    exact hr

/-- C19 (first placements on a new disk): on a new disk with positive counts of
platters, surfaces and tracks, at least 3 sectors per track and no sector file
yet, the insert of `x1` with `|x1| + 1 ≤ capacity` reports id 1 and adds the
entry at `(0,0,0,2)` with offset 0 and length `|x1| + 1`; a following insert of
`x2` with `|x1| + 1 + |x2| + 1 ≤ capacity` reports id 2 and adds the entry in
the same sector at offset `|x1| + 1`. -/
theorem C19_first_placements (fs : Archivos)
    (nPlatos nSuperficies nPistas nSectores capSector : Int) (nombre x1 x2 : Cadena)
    (hP : 0 < nPlatos) (hS : 0 < nSuperficies) (hT : 0 < nPistas) (hK : 3 ≤ nSectores)
    (hfresh : SinArchivos fs (rutaDe nombre))
    (h1 : (x1.length : Int) + 1 ≤ capSector)
    (h2 : (x1.length : Int) + 1 + (x2.length : Int) + 1 ≤ capSector) :
    (Sistema.crear fs nPlatos nSuperficies nPistas nSectores capSector nombre).idAsignado
        (Operacion.insertar x1) = some 1 ∧
      ((Sistema.crear fs nPlatos nSuperficies nPistas nSectores capSector nombre).aplicar
        (Operacion.insertar x1)).idAsignado (Operacion.insertar x2) = some 2 ∧
      ((Sistema.crear fs nPlatos nSuperficies nPistas nSectores capSector nombre).ejecutar
        [Operacion.insertar x1, Operacion.insertar x2]).disco.diccionarioDeDatosEnRAM =
        [{ idRegistro := 1, platoIdx := 0, superficieIdx := 0, pistaIdx := 0,
           sectorGlobalEnPista := 2, offset := 0, tamRegistro := (x1.length : Int) + 1,
           ocupado := true },
         { idRegistro := 2, platoIdx := 0, superficieIdx := 0, pistaIdx := 0,
           sectorGlobalEnPista := 2, offset := (x1.length : Int) + 1,
           tamRegistro := (x2.length : Int) + 1, ocupado := true }] := by
  obtain ⟨⟨e, hd⟩, hf⟩ := crear_campos fs nPlatos nSuperficies nPistas nSectores capSector nombre
  generalize Sistema.crear fs nPlatos nSuperficies nPistas nSectores capSector nombre = s0
    at hd hf ⊢
  have hfile0 : s0.archivos ⟨s0.disco.rutaPlatos, 0, 0, 0, 2⟩ = none := by
    rw [hd, hf _ (by simp)]
    exact hfresh 0 0 0 2
  have htam0 : s0.disco.tamSector s0.archivos 0 0 0 2 = 0 := by
    simp only [Disco.tamSector, Sector.obtenerTamArchivo, hfile0]
  have hid0 : s0.disco.getNextRecordId = 1 := by
    rw [hd]; rfl
  obtain ⟨a1, a2, a3⟩ := insertarRegistro_sector2 s0.archivos s0.disco x1 0
    (by rw [hd]; exact hP) (by rw [hd]; exact hS) (by rw [hd]; exact hT) (by rw [hd]; exact hK)
    (by rw [hd]) (by rw [hd]) (by rw [hd]) (by rw [hd]) (Or.inl rfl)
    (by rw [htam0]; rw [hd]; simpa using h1)
  rw [hid0] at a1
  rw [hid0, htam0] at a2
  rw [hfile0] at a3
  have hdic0 : s0.disco.diccionarioDeDatosEnRAM = [] := by rw [hd]
  rw [hdic0] at a2
  have hs1 : (s0.aplicar (Operacion.insertar x1)).disco =
      (s0.disco.insertarRegistro s0.archivos x1).2.1 := rfl
  have hs1f : (s0.aplicar (Operacion.insertar x1)).archivos =
      (s0.disco.insertarRegistro s0.archivos x1).1 := rfl
  generalize s0.aplicar (Operacion.insertar x1) = s1 at hs1 hs1f ⊢
  rw [← hs1] at a2
  rw [← hs1f] at a3
  have hruta : s1.disco.rutaPlatos = s0.disco.rutaPlatos := by rw [a2]
  have htam1 : s1.disco.tamSector s1.archivos 0 0 0 2 = (x1.length : Int) + 1 := by
    simp only [Disco.tamSector, Sector.obtenerTamArchivo, hruta, a3]
    simp
  have hid1 : s1.disco.getNextRecordId = 2 := by
    rw [a2]; rfl
  obtain ⟨b1, b2, -⟩ := insertarRegistro_sector2 s1.archivos s1.disco x2 2
    (by rw [a2, hd]; exact hP) (by rw [a2, hd]; exact hS) (by rw [a2, hd]; exact hT)
    (by rw [a2, hd]; exact hK) (by rw [a2]) (by rw [a2]) (by rw [a2]) (by rw [a2]) (Or.inr rfl)
    (by rw [htam1]; rw [a2, hd]; simp only; omega)
  rw [hid1] at b1
  rw [hid1, htam1] at b2
  refine ⟨?_, ?_, ?_⟩
  · simp only [Sistema.idAsignado, a1]
  · simp only [Sistema.idAsignado, b1]
  · have hej : (s0.ejecutar [Operacion.insertar x1, Operacion.insertar x2]).disco =
        (s1.disco.insertarRegistro s1.archivos x2).2.1 := by
      rw [hs1, hs1f]
      rfl
    rw [hej, b2, a2]
    rfl

/-- C19 applied: the scenario of the specification, `A#1` at offset 0 and `B#2` at offset 4. -/
theorem C19_first_placements_witness :
    (Sistema.crear Archivos.vacio 1 1 1 3 50 ['d']).idAsignado
        (Operacion.insertar ['A', '#', '1']) = some 1 ∧
      ((Sistema.crear Archivos.vacio 1 1 1 3 50 ['d']).aplicar
        (Operacion.insertar ['A', '#', '1'])).idAsignado
          (Operacion.insertar ['B', '#', '2']) = some 2 ∧
      ((Sistema.crear Archivos.vacio 1 1 1 3 50 ['d']).ejecutar
        [Operacion.insertar ['A', '#', '1'],
          Operacion.insertar ['B', '#', '2']]).disco.diccionarioDeDatosEnRAM =
        [{ idRegistro := 1, platoIdx := 0, superficieIdx := 0, pistaIdx := 0,
           sectorGlobalEnPista := 2, offset := 0,
           tamRegistro := ((['A', '#', '1'] : Cadena).length : Int) + 1, ocupado := true },
         { idRegistro := 2, platoIdx := 0, superficieIdx := 0, pistaIdx := 0,
           sectorGlobalEnPista := 2, offset := ((['A', '#', '1'] : Cadena).length : Int) + 1,
           tamRegistro := ((['B', '#', '2'] : Cadena).length : Int) + 1, ocupado := true }] :=
  C19_first_placements Archivos.vacio 1 1 1 3 50 ['d'] ['A', '#', '1'] ['B', '#', '2']
    (by decide) (by decide) (by decide) (by decide) (fun _ _ _ _ => rfl) (by decide) (by decide)

/-! ### Every entry stores its payload -/

/-- Splitting cuts a first piece that has no delimiter at the delimiter after it. -/
theorem getlineTodos_sep (delim : Char) (a resto : Cadena) (ha : delim ∉ a) :
    getlineTodos delim (a ++ delim :: resto) = a :: getlineTodos delim resto := by
  induction a with
  | nil => simp [getlineTodos]
  | cons c a ih =>
    have hc : c ≠ delim := fun h => ha (h ▸ List.mem_cons_self _ _)
    have ha1 : delim ∉ a := fun h => ha (List.mem_cons_of_mem _ h)
    rw [List.cons_append, getlineTodos, if_neg hc, ih ha1]

/-- The lines read from the text that stores lines without newline are those lines. -/
theorem getlineTodos_textoDeLineas (ls : List Cadena) (h : ∀ l ∈ ls, '\n' ∉ l) :
    getlineTodos '\n' (textoDeLineas ls) = ls := by
  induction ls with
  | nil => rfl
  | cons l ls ih =>
    have hl : '\n' ∉ l := h l (List.mem_cons_self _ _)
    have hls : ∀ m ∈ ls, '\n' ∉ m := fun m hm => h m (List.mem_cons_of_mem _ hm)
    have : textoDeLineas (l :: ls) = l ++ '\n' :: textoDeLineas ls := by
      simp [textoDeLineas]
    rw [this, getlineTodos_sep _ _ _ hl, ih hls]

/-- The first line of the text that stores lines is the first of the lines. -/
theorem takeWhile_textoDeLineas (l : Cadena) (ls : List Cadena) (hl : '\n' ∉ l) :
    (textoDeLineas (l :: ls)).takeWhile (fun c => c != '\n') = l := by
  have : textoDeLineas (l :: ls) = l ++ '\n' :: textoDeLineas ls := by
    simp [textoDeLineas]
  rw [this]
  induction l with
  | nil => simp
  | cons c l ih =>
    have hc : c ≠ '\n' := fun h => hl (h ▸ List.mem_cons_self _ _)
    have hl1 : '\n' ∉ l := fun h => hl (List.mem_cons_of_mem _ h)
    have : textoDeLineas (l :: ls) = l ++ '\n' :: textoDeLineas ls := by
      simp [textoDeLineas]
    simp only [List.cons_append, List.takeWhile_cons, bne_iff_ne, ne_eq, hc, not_false_eq_true,
      decide_True, if_true, List.cons.injEq, true_and]
    exact ih hl1 this

/-- A line with fewer than 8 fields is skipped by `cargarDiccionario`. -/
theorem parsearLinea_pocos (linea : Cadena) (h : (getlineTodos '#' linea).length < 8) :
    parsearLinea linea = Lectura.ok none := by
  unfold parsearLinea
  simp only
  rw [if_neg (by omega)]

/-- The first field of a line is not read by `cargarDiccionario`. -/
theorem parsearLinea_etiqueta (tag1 tag2 resto : Cadena) (h1 : '#' ∉ tag1) (h2 : '#' ∉ tag2) :
    parsearLinea (tag1 ++ '#' :: resto) = parsearLinea (tag2 ++ '#' :: resto) := by
  unfold parsearLinea
  simp only [getlineTodos_sep _ _ _ h1, getlineTodos_sep _ _ _ h2, List.length_cons,
    List.getD_cons_succ, List.get?_cons_succ]

/-- The loop of `cargarDiccionario` gives the same result without a line that it skips. -/
theorem cargarLineas_omitir (antes despues : List Cadena) (linea : Cadena)
    (acc : List RecordMetadata) (h : parsearLinea linea = Lectura.ok none) :
    cargarLineas (antes ++ linea :: despues) acc = cargarLineas (antes ++ despues) acc := by
  induction antes generalizing acc with
  | nil =>
    simp only [List.nil_append, cargarLineas, h]
    split <;> rfl
  | cons a antes ih =>
    simp only [List.cons_append, cargarLineas]
    split
    · exact ih acc
    · cases parsearLinea a with
      | ok r =>
        cases r with
        | none => exact ih acc
        | some rm => exact ih _
      | excepcion => rfl
      | indefinido => rfl

/-- The disk object built by the constructor does not depend on the content of
a directory sector. -/
theorem nuevo_disco_sobrescribir (fs : Archivos) (ruta c1 : Cadena)
    (nPlatos nSuperficies nPistas nSectores capSector : Int) (nombre : Cadena) :
    (Disco.nuevo (Sector.sobrescribir fs ⟨ruta, 0, 0, 0, 1⟩ c1) nPlatos nSuperficies nPistas
        nSectores capSector nombre).2 =
      (Disco.nuevo fs nPlatos nSuperficies nPistas nSectores capSector nombre).2 := by
  simp [Disco.nuevo, Disco.cargarEsquema, Sector.leerTodo, Disco.persistirDiccionario,
    Sector.sobrescribir, Disco.rutaSector0, Disco.rutaSector1]

/-- What `cargarDiccionario` reads after the constructor: the header just
written, whatever the file system was, when the path loaded is the path of the
constructor; else the content that the directory sector had. -/
theorem leerTodo_nuevo (fs1 fs2 : Archivos) (ruta : Cadena)
    (nPlatos nSuperficies nPistas nSectores capSector : Int) (nombre : Cadena) :
    ((⟨ruta, 0, 0, 0, 1⟩ : Ruta) = ⟨rutaDe nombre, 0, 0, 0, 1⟩ →
      Sector.leerTodo
          (Disco.nuevo fs1 nPlatos nSuperficies nPistas nSectores capSector nombre).1
          ⟨ruta, 0, 0, 0, 1⟩ =
        Sector.leerTodo
          (Disco.nuevo fs2 nPlatos nSuperficies nPistas nSectores capSector nombre).1
          ⟨ruta, 0, 0, 0, 1⟩) ∧
    ((⟨ruta, 0, 0, 0, 1⟩ : Ruta) ≠ ⟨rutaDe nombre, 0, 0, 0, 1⟩ →
      Sector.leerTodo
          (Disco.nuevo fs1 nPlatos nSuperficies nPistas nSectores capSector nombre).1
          ⟨ruta, 0, 0, 0, 1⟩ =
        (fs1 ⟨ruta, 0, 0, 0, 1⟩).getD []) := by
  constructor
  · intro he
    unfold rutaDe at he
    simp only [Disco.nuevo, Disco.persistirDiccionario, Sector.sobrescribir, Sector.leerTodo,
      Disco.rutaSector1]
    rw [if_pos he, if_pos he]
  · intro hne
    unfold rutaDe at hne
    simp only [Disco.nuevo, Disco.persistirDiccionario, Sector.sobrescribir, Sector.leerTodo,
      Disco.rutaSector1]
    rw [if_neg hne]

/-- `cargarDisco` has the same kind of outcome and the same directory for two
contents of the directory sector with the same first line and the same result
of the loop of `cargarDiccionario` over the later lines. -/
theorem cargarDisco_congr (fs : Archivos) (ruta c c1 : Cadena)
    (hfile : fs ⟨ruta, 0, 0, 0, 1⟩ = some c)
    (hprimera : c1.takeWhile (fun b => b != '\n') = c.takeWhile (fun b => b != '\n'))
    (hlineas : cargarLineas ((getlineTodos '\n' c).drop 1) [] =
      cargarLineas ((getlineTodos '\n' c1).drop 1) []) :
    (Disco.cargarDisco fs ruta).clase =
        (Disco.cargarDisco (Sector.sobrescribir fs ⟨ruta, 0, 0, 0, 1⟩ c1) ruta).clase ∧
      (Disco.cargarDisco fs ruta).diccionario =
        (Disco.cargarDisco (Sector.sobrescribir fs ⟨ruta, 0, 0, 0, 1⟩ c1) ruta).diccionario := by
  have hfile1 : Sector.sobrescribir fs ⟨ruta, 0, 0, 0, 1⟩ c1 ⟨ruta, 0, 0, 0, 1⟩ = some c1 := by
    simp [Sector.sobrescribir]
  unfold Disco.cargarDisco
  rw [hfile, hfile1]
  simp only [hprimera]
  generalize getlineTodos '#' (c.takeWhile fun b => b != '\n') = segs
  by_cases hcab : segs.length < 7 ∨ segs.getD 0 [] ≠ ['C', 'O', 'N', 'F', 'I', 'G']
  · simp only [if_pos hcab, and_self]
  · simp only [if_neg hcab]
    cases stoi (segs.getD 1 []) <;> cases stoi (segs.getD 2 []) <;>
      cases stoi (segs.getD 3 []) <;> cases stoi (segs.getD 4 []) <;>
      cases stoi (segs.getD 5 []) <;> simp only [Carga.clase, Carga.diccionario, and_self]
    rename_i nPlatos nSuperficies nPistas nSectores capSector
    generalize segs.getD 6 [] = nombre
    rw [nuevo_disco_sobrescribir]
    obtain ⟨hig, hdif⟩ := leerTodo_nuevo fs (Sector.sobrescribir fs ⟨ruta, 0, 0, 0, 1⟩ c1) ruta
      nPlatos nSuperficies nPistas nSectores capSector nombre
    obtain ⟨-, hdif1⟩ := leerTodo_nuevo (Sector.sobrescribir fs ⟨ruta, 0, 0, 0, 1⟩ c1) fs ruta
      nPlatos nSuperficies nPistas nSectores capSector nombre
    have hsame : cargarLineas ((getlineTodos '\n' (Sector.leerTodo
          (Disco.nuevo fs nPlatos nSuperficies nPistas nSectores capSector nombre).1
          ⟨ruta, 0, 0, 0, 1⟩)).drop 1) [] =
        cargarLineas ((getlineTodos '\n' (Sector.leerTodo
          (Disco.nuevo (Sector.sobrescribir fs ⟨ruta, 0, 0, 0, 1⟩ c1) nPlatos nSuperficies
            nPistas nSectores capSector nombre).1 ⟨ruta, 0, 0, 0, 1⟩)).drop 1) [] := by
      by_cases he : (⟨ruta, 0, 0, 0, 1⟩ : Ruta) = ⟨rutaDe nombre, 0, 0, 0, 1⟩
      · rw [hig he]
      · rw [hdif he, hdif1 he, hfile, hfile1]
        exact hlineas
    simp only [Disco.cargarDiccionario, Disco.rutaSector1]
    rw [← hsame]
    cases cargarLineas ((getlineTodos '\n' (Sector.leerTodo
        (Disco.nuevo fs nPlatos nSuperficies nPistas nSectores capSector nombre).1
        ⟨ruta, 0, 0, 0, 1⟩)).drop 1) [] with
    | ok dic =>
      simp only [Carga.clase, Carga.diccionario, true_and]
      obtain ⟨e1, he1⟩ := cargarEsquema_eq
        (Disco.nuevo fs nPlatos nSuperficies nPistas nSectores capSector nombre).1
        { (Disco.nuevo fs nPlatos nSuperficies nPistas nSectores capSector nombre).2 with
          rutaBaseDisco := ruta, diccionarioDeDatosEnRAM := dic }
      obtain ⟨e2, he2⟩ := cargarEsquema_eq
        (Disco.nuevo (Sector.sobrescribir fs ⟨ruta, 0, 0, 0, 1⟩ c1) nPlatos nSuperficies
          nPistas nSectores capSector nombre).1
        { (Disco.nuevo fs nPlatos nSuperficies nPistas nSectores capSector nombre).2 with
          rutaBaseDisco := ruta, diccionarioDeDatosEnRAM := dic }
      simp only [he1, he2]
    | excepcion => exact ⟨rfl, rfl⟩
    | indefinido => exact ⟨rfl, rfl⟩

/-- C14 amended (a malformed directory line does not fail the load): when the
directory sector stores a first line `cab`, lines `antes`, a line with fewer
than 8 fields and lines `despues`, `cargarDisco` has the same kind of outcome,
and returns a disk with the same directory, as for the sector without that
line: the line is skipped and the disk is built from the remaining lines.  The
tag is not checked: `cargarDiccionario` reads a line in the same way whatever
its first field. -/
theorem C14_malformed_line_skipped (fs : Archivos) (ruta cab : Cadena)
    (antes despues : List Cadena) (linea : Cadena)
    (hnl : ∀ l ∈ cab :: (antes ++ linea :: despues), '\n' ∉ l)
    (hcampos : (getlineTodos '#' linea).length < 8)
    (hfile : fs ⟨ruta, 0, 0, 0, 1⟩ = some (textoDeLineas (cab :: (antes ++ linea :: despues)))) :
    ((Disco.cargarDisco fs ruta).clase =
        (Disco.cargarDisco
          (Sector.sobrescribir fs ⟨ruta, 0, 0, 0, 1⟩ (textoDeLineas (cab :: (antes ++ despues))))
          ruta).clase ∧
      (Disco.cargarDisco fs ruta).diccionario =
        (Disco.cargarDisco
          (Sector.sobrescribir fs ⟨ruta, 0, 0, 0, 1⟩ (textoDeLineas (cab :: (antes ++ despues))))
          ruta).diccionario) ∧
    ∀ tag1 tag2 resto : Cadena, '#' ∉ tag1 → '#' ∉ tag2 →
      parsearLinea (tag1 ++ '#' :: resto) = parsearLinea (tag2 ++ '#' :: resto) := by
  refine ⟨?_, fun tag1 tag2 resto h1 h2 => parsearLinea_etiqueta tag1 tag2 resto h1 h2⟩
  have hcab : '\n' ∉ cab := hnl cab (List.mem_cons_self _ _)
  have hnl1 : ∀ l ∈ cab :: (antes ++ despues), '\n' ∉ l := by
    intro l hl
    apply hnl l
    simp only [List.mem_cons, List.mem_append] at hl ⊢
    tauto
  apply cargarDisco_congr fs ruta _ _ hfile
  · rw [takeWhile_textoDeLineas _ _ hcab, takeWhile_textoDeLineas _ _ hcab]
  · rw [getlineTodos_textoDeLineas _ hnl, getlineTodos_textoDeLineas _ hnl1]
    simp only [List.drop_succ_cons, List.drop_zero]
    exact cargarLineas_omitir antes despues linea [] (parsearLinea_pocos linea hcampos)

/-- C14 amended, applied: the directory sector under `./x_disk` with the header
of the disk `d`, the line `X#junk` and a well-formed line. -/
theorem C14_malformed_line_skipped_witness :
    (Disco.cargarDisco
        (archivosCon (String.toList "./x_disk")
          "CONFIG#1#1#1#3#50#d\nX#junk\nR#1#0#0#0#2#0#4#1\n")
        (String.toList "./x_disk")).diccionario =
      (Disco.cargarDisco
        (Sector.sobrescribir
          (archivosCon (String.toList "./x_disk")
            "CONFIG#1#1#1#3#50#d\nX#junk\nR#1#0#0#0#2#0#4#1\n")
          ⟨String.toList "./x_disk", 0, 0, 0, 1⟩
          (textoDeLineas (String.toList "CONFIG#1#1#1#3#50#d" ::
            ([] ++ [String.toList "R#1#0#0#0#2#0#4#1"]))))
        (String.toList "./x_disk")).diccionario :=
  (C14_malformed_line_skipped
    (archivosCon (String.toList "./x_disk")
      "CONFIG#1#1#1#3#50#d\nX#junk\nR#1#0#0#0#2#0#4#1\n")
    (String.toList "./x_disk") (String.toList "CONFIG#1#1#1#3#50#d") []
    [String.toList "R#1#0#0#0#2#0#4#1"] (String.toList "X#junk")
    (by decide) (by decide) (by decide)).1.2

/-! ### What a delete changes -/

/-- The loop of `eliminarRegistro` leaves the directory that the specification requires. -/
theorem marcarEliminado_eq_apagarPrimero (id : Int) (l : List RecordMetadata) :
    (Disco.marcarEliminado id l).1 = apagarPrimero id l := by
  induction l with
  | nil => rfl
  | cons a l ih =>
    unfold Disco.marcarEliminado apagarPrimero
    by_cases h1 : a.idRegistro = id
    · have hb : (a.idRegistro == id) = true := by simpa using h1
      simp only [List.findIdx?_cons, hb, if_true, List.modify_zero_cons, if_pos h1]
      cases h2 : a.ocupado with
      | true => simp
      | false =>
        simp only [Bool.false_eq_true, if_false]
        congr 1
        cases a
        simp_all
    · have hb : (a.idRegistro == id) = false := by simpa using h1
      simp only [List.findIdx?_cons, hb, Bool.false_eq_true, if_false, if_neg h1]
      rw [List.findIdx?_succ, ih]
      unfold apagarPrimero
      cases List.findIdx? (fun rm => rm.idRegistro == id) l 0 with
      | none => rfl
      | some i => simp

/-- Without an entry with the id, the loop of `eliminarRegistro` changes
nothing, finds nothing and prints nothing. -/
theorem marcarEliminado_sin_id (id : Int) (l : List RecordMetadata)
    (h : ∀ rm ∈ l, rm.idRegistro ≠ id) : Disco.marcarEliminado id l = (l, false, []) := by
  induction l with
  | nil => rfl
  | cons a l ih =>
    unfold Disco.marcarEliminado
    rw [if_neg (h a (List.mem_cons_self _ _)), ih fun rm hm => h rm (List.mem_cons_of_mem _ hm)]

/-- C21 (a delete only flips one flag): for every state and every id,
`eliminarRegistro(id)` leaves the disk object as it was, the cursor included,
except for the directory in memory, which keeps its length and order and in
which only the flag of the first entry with the id is cleared; it changes no
sector file that is not reserved; when no entry has the id, the directory in
memory is unchanged and not found is reported. -/
theorem C21_delete_flips_one_flag (fs : Archivos) (d : Disco) (id : Int) :
    (d.eliminarRegistro fs id).2.1 =
        { d with diccionarioDeDatosEnRAM := apagarPrimero id d.diccionarioDeDatosEnRAM } ∧
      (d.eliminarRegistro fs id).2.1.diccionarioDeDatosEnRAM.length =
        d.diccionarioDeDatosEnRAM.length ∧
      (∀ (b : Cadena) (p s t k : Int), isReservedSector p s t k = false →
        (d.eliminarRegistro fs id).1 ⟨b, p, s, t, k⟩ = fs ⟨b, p, s, t, k⟩) ∧
      ((∀ rm ∈ d.diccionarioDeDatosEnRAM, rm.idRegistro ≠ id) →
        (d.eliminarRegistro fs id).2.1.diccionarioDeDatosEnRAM = d.diccionarioDeDatosEnRAM ∧
        (d.eliminarRegistro fs id).2.2 = [MensajeEliminar.noEncontrado]) := by
  refine ⟨?_, ?_, ?_, ?_⟩
  · rw [eliminarRegistro_disco, marcarEliminado_eq_apagarPrimero]
  · rw [eliminarRegistro_disco]
    exact marcarEliminado_length id _
  · intro b p s t k hr
    rw [eliminarRegistro_archivos, persistirDiccionario_otro _ _ _ _ _ _ _ hr]
  · intro h
    have hm := marcarEliminado_sin_id id _ h
    constructor
    · rw [eliminarRegistro_disco, hm]
    · unfold Disco.eliminarRegistro
      rw [hm]
      rfl

/-- C21 applied: in the scenario after the inserts of `A#1` and `B#2`, the
delete of id 7, which no entry has. -/
theorem C21_delete_flips_one_flag_witness :
    ((ejemplo.ejecutar [Operacion.insertar ['A', '#', '1'],
        Operacion.insertar ['B', '#', '2']]).disco.eliminarRegistro
      (ejemplo.ejecutar [Operacion.insertar ['A', '#', '1'],
        Operacion.insertar ['B', '#', '2']]).archivos 7).2.2 =
      [MensajeEliminar.noEncontrado] :=
  ((C21_delete_flips_one_flag
    (ejemplo.ejecutar [Operacion.insertar ['A', '#', '1'],
      Operacion.insertar ['B', '#', '2']]).archivos
    (ejemplo.ejecutar [Operacion.insertar ['A', '#', '1'],
      Operacion.insertar ['B', '#', '2']]).disco 7).2.2.2 (by decide)).2

/-! ### The scan order -/

/-- Two flattened sequences agree when their bodies agree on every index. -/
theorem flatMap_congr_mem {α β : Type} {l : List α} {f g : α → List β}
    (h : ∀ x ∈ l, f x = g x) : l.flatMap f = l.flatMap g := by
  induction l with
  | nil => rfl
  | cons a l ih =>
    simp only [List.flatMap_cons, h a (List.mem_cons_self _ _)]
    rw [ih (fun x hx => h x (List.mem_cons_of_mem _ hx))]

/-- Length of a flattened sequence whose pieces all have the same length. -/
theorem length_flatMap_const {α β : Type} {l : List α} {f : α → List β} {c : Nat}
    (h : ∀ x ∈ l, (f x).length = c) : (l.flatMap f).length = l.length * c := by
  induction l with
  | nil => simp
  | cons a l ih =>
    simp only [List.flatMap_cons, List.length_append, List.length_cons,
      h a (List.mem_cons_self _ _), ih (fun x hx => h x (List.mem_cons_of_mem _ hx))]
    ring

/-- The loops of the search test the addresses of `secuenciaExaminada` in order. -/
theorem buscarEspacio_eq_secuencia (fs : Archivos) (d : Disco) (n : Int) :
    d.buscarEspacio fs n =
      d.secuenciaExaminada.findSome? fun a => d.probarSector fs n a.1 a.2.1 a.2.2.1 a.2.2.2 := by
  unfold Disco.buscarEspacio Disco.secuenciaExaminada
  simp only [findSome?_flatMap_eq, List.findSome?_map]
  rfl

/-- On a positive geometry with the cursor in bounds the addresses computed by
the loops are those of the reference order. -/
theorem secuenciaExaminada_eq_ordenReferencia (d : Disco)
    (hg : GeometriaPositiva d) (hc : CursorEnRango d) :
    d.secuenciaExaminada = d.ordenReferencia := by
  obtain ⟨hP, hS, hT, hK⟩ := hg
  obtain ⟨⟨cp, -⟩, ⟨cs, -⟩, ⟨ct, -⟩, ⟨ck, -⟩⟩ := hc
  unfold Disco.secuenciaExaminada Disco.ordenReferencia
  apply flatMap_congr_mem
  intro p _
  apply flatMap_congr_mem
  intro t _
  apply flatMap_congr_mem
  intro s _
  apply List.map_congr_left
  intro k _
  have hstart : 0 ≤ (if t = 0 ∧ s = 0 then d.lastSectorWritten else 0) := by
    split <;> omega
  rw [(tmod_indice p cp hP).1, (tmod_indice s cs hS).1, (tmod_indice t ct hT).1,
    (tmod_indice k hstart hK).1]

/-- Number of addresses computed by the loops. -/
theorem length_secuenciaExaminada (d : Disco) :
    d.secuenciaExaminada.length =
      d.numPlatos.toNat * (d.numPistasPorSuperficie.toNat *
        (d.numSuperficiesPorPlato.toNat * d.numSectoresPorPista.toNat)) := by
  unfold Disco.secuenciaExaminada
  have h1 : ∀ (t s : Nat) (f : Nat → Int × Int × Int × Int),
      ((List.range d.numSectoresPorPista.toNat).map f).length = d.numSectoresPorPista.toNat := by
    intro t s f
    rw [List.length_map, List.length_range]
  rw [length_flatMap_const (c := d.numPistasPorSuperficie.toNat *
    (d.numSuperficiesPorPlato.toNat * d.numSectoresPorPista.toNat)), List.length_range]
  intro p _
  rw [length_flatMap_const (c := d.numSuperficiesPorPlato.toNat * d.numSectoresPorPista.toNat),
    List.length_range]
  intro t _
  rw [length_flatMap_const (c := d.numSectoresPorPista.toNat), List.length_range]
  intro s _
  rw [List.length_map, List.length_range]

/-- The cross product lists every address once. -/
theorem nodup_productoCruzado (d : Disco) : d.productoCruzado.Nodup := by
  unfold Disco.productoCruzado
  apply List.Nodup.map
  · rintro ⟨a1, a2, a3, a4⟩ ⟨b1, b2, b3, b4⟩ h
    simp only [Prod.mk.injEq, Nat.cast_inj] at h
    simp only [Prod.mk.injEq]
    exact h
  · exact (List.nodup_range _).product ((List.nodup_range _).product
      ((List.nodup_range _).product (List.nodup_range _)))

/-- The cross product consists of the addresses of the geometry. -/
theorem mem_productoCruzado (d : Disco) (p s t k : Int) :
    (p, s, t, k) ∈ d.productoCruzado ↔ EnRango d p s t k := by
  unfold Disco.productoCruzado EnRango
  simp only [List.mem_map, List.pair_mem_product, List.mem_range, Prod.exists, Prod.mk.injEq]
  constructor
  · rintro ⟨ip, is, it, ik, ⟨h1, h2, h3, h4⟩, rfl, rfl, rfl, rfl⟩
    omega
  · rintro ⟨⟨p0, p1⟩, ⟨s0, s1⟩, ⟨t0, t1⟩, ⟨k0, k1⟩⟩
    exact ⟨p.toNat, s.toNat, t.toNat, k.toNat, ⟨by omega, by omega, by omega, by omega⟩,
      by omega, by omega, by omega, by omega⟩

/-- Number of addresses of the cross product. -/
theorem length_productoCruzado (d : Disco) :
    d.productoCruzado.length =
      d.numPlatos.toNat * (d.numSuperficiesPorPlato.toNat *
        (d.numPistasPorSuperficie.toNat * d.numSectoresPorPista.toNat)) := by
  have hprod : ∀ {α β : Type} (l₁ : List α) (l₂ : List β),
      (List.product l₁ l₂).length = l₁.length * l₂.length :=
    fun l₁ l₂ => List.length_product l₁ l₂
  unfold Disco.productoCruzado
  simp only [List.length_map, hprod, List.length_range]

/-- On a positive geometry with the cursor in bounds, the addresses computed by
the loops are a rearrangement of the cross product. -/
theorem secuenciaExaminada_perm (d : Disco) (hg : GeometriaPositiva d) (hc : CursorEnRango d) :
    List.Perm d.secuenciaExaminada d.productoCruzado := by
  have hsub : d.productoCruzado ⊆ d.secuenciaExaminada := by
    rintro ⟨p, s, t, k⟩ hm
    rw [secuenciaExaminada_eq_ordenReferencia d hg hc, mem_ordenReferencia d hg hc]
    exact (mem_productoCruzado d p s t k).1 hm
  have hlen : d.secuenciaExaminada.length ≤ d.productoCruzado.length := by
    rw [length_secuenciaExaminada, length_productoCruzado]
    apply le_of_eq
    ring
  exact (((nodup_productoCruzado d).subperm hsub).perm_of_length_le hlen).symm

/-- C26 (the scan order is a permutation): on a geometry with positive counts
and a cursor in bounds, the search tests the addresses of `secuenciaExaminada`
in order, which are the addresses computed by the four nested loops; that
sequence is a rearrangement of the cross product of the geometry, has no
repeated element, contains exactly the addresses of the geometry, and has `P·S·T·Sec` elements, so a
search in which no sector fits takes exactly that many candidate steps. -/
theorem C26_scan_order_permutation (fs : Archivos) (d : Disco) (n : Int)
    (hg : GeometriaPositiva d) (hc : CursorEnRango d) :
    (d.buscarEspacio fs n =
        d.secuenciaExaminada.findSome?
          fun a => d.probarSector fs n a.1 a.2.1 a.2.2.1 a.2.2.2) ∧
      List.Perm d.secuenciaExaminada d.productoCruzado ∧
      d.secuenciaExaminada.Nodup ∧
      (∀ p s t k : Int, (p, s, t, k) ∈ d.secuenciaExaminada ↔ EnRango d p s t k) ∧
      (d.secuenciaExaminada.length : Int) =
        d.numPlatos * d.numSuperficiesPorPlato * d.numPistasPorSuperficie *
          d.numSectoresPorPista := by
  have hperm := secuenciaExaminada_perm d hg hc
  have hnd : d.secuenciaExaminada.Nodup := hperm.nodup_iff.2 (nodup_productoCruzado d)
  refine ⟨buscarEspacio_eq_secuencia fs d n, hperm, hnd, ?_, ?_⟩
  · intro p s t k
    rw [secuenciaExaminada_eq_ordenReferencia d hg hc, mem_ordenReferencia d hg hc]
  · rw [length_secuenciaExaminada]
    obtain ⟨hP, hS, hT, hK⟩ := hg
    push_cast
    rw [Int.toNat_of_nonneg hP.le, Int.toNat_of_nonneg hS.le, Int.toNat_of_nonneg hT.le,
      Int.toNat_of_nonneg hK.le]
    ring

/-- C26 applied: the 2×2×2×3 disk with the cursor at `(1,1,1,2)` has a scan of 24 addresses. -/
theorem C26_scan_order_permutation_witness :
    ({ (Sistema.crear Archivos.vacio 2 2 2 3 50 ['d']).disco with
          lastPlatoWritten := 1, lastSuperficieWritten := 1, lastPistaWritten := 1,
          lastSectorWritten := 2 }.secuenciaExaminada.length : Int) = 2 * 2 * 2 * 3 :=
  (C26_scan_order_permutation (Sistema.crear Archivos.vacio 2 2 2 3 50 ['d']).archivos
    { (Sistema.crear Archivos.vacio 2 2 2 3 50 ['d']).disco with
        lastPlatoWritten := 1, lastSuperficieWritten := 1, lastPistaWritten := 1,
        lastSectorWritten := 2 } 4 (by decide) (by decide)).2.2.2.2

/-! ### Cylinder locality -/

/-- The search is a scan of the cylinders: platters from the cursor, and for
each platter the tracks from the cursor. -/
theorem buscarEspacio_eq_cilindros (fs : Archivos) (d : Disco) (n : Int) :
    d.buscarEspacio fs n =
      (List.range d.numPlatos.toNat).findSome? fun (p : Nat) =>
        (List.range d.numPistasPorSuperficie.toNat).findSome? fun (t : Nat) =>
          d.buscarEnCilindro fs n p t :=
  rfl

/-- The scan of a cylinder without a sector that fits returns nothing. -/
theorem buscarEnCilindro_none (fs : Archivos) (d : Disco) (n : Int)
    (hg : GeometriaPositiva d) (hc : CursorEnRango d) (p t : Nat)
    (h : ∀ s k : Int,
      EnRango d ((d.lastPlatoWritten + (p : Int)) % d.numPlatos) s
        ((d.lastPistaWritten + (t : Int)) % d.numPistasPorSuperficie) k →
      d.cabe fs n ((d.lastPlatoWritten + (p : Int)) % d.numPlatos, s,
        (d.lastPistaWritten + (t : Int)) % d.numPistasPorSuperficie, k) = false) :
    d.buscarEnCilindro fs n p t = none := by
  obtain ⟨hP, hS, hT, hK⟩ := hg
  obtain ⟨⟨cp, -⟩, ⟨cs, -⟩, ⟨ct, -⟩, ⟨ck, -⟩⟩ := hc
  unfold Disco.buscarEnCilindro
  rw [List.findSome?_eq_none_iff]
  intro s _
  rw [List.findSome?_eq_none_iff]
  intro k _
  have hstart : 0 ≤ (if t = 0 ∧ s = 0 then d.lastSectorWritten else 0) := by
    split <;> omega
  obtain ⟨ep, bp⟩ := tmod_indice p cp hP
  obtain ⟨es, bs⟩ := tmod_indice s cs hS
  obtain ⟨et, bt⟩ := tmod_indice t ct hT
  obtain ⟨ek, bk⟩ := tmod_indice k hstart hK
  rw [ep, es, et, ek, probarSector_eq_ite ⟨bp, bs, bt, bk⟩, h _ _ ⟨bp, bs, bt, bk⟩]
  rfl

/-- The scan of a cylinder with a sector that fits returns an address of that cylinder. -/
theorem buscarEnCilindro_some (fs : Archivos) (d : Disco) (n : Int)
    (hg : GeometriaPositiva d) (hc : CursorEnRango d) (p t : Nat)
    (h : ∃ s k : Int,
      EnRango d ((d.lastPlatoWritten + (p : Int)) % d.numPlatos) s
        ((d.lastPistaWritten + (t : Int)) % d.numPistasPorSuperficie) k ∧
      d.cabe fs n ((d.lastPlatoWritten + (p : Int)) % d.numPlatos, s,
        (d.lastPistaWritten + (t : Int)) % d.numPistasPorSuperficie, k) = true) :
    ∃ s k off : Int, d.buscarEnCilindro fs n p t =
      some ((d.lastPlatoWritten + (p : Int)) % d.numPlatos, s,
        (d.lastPistaWritten + (t : Int)) % d.numPistasPorSuperficie, k, off) := by
  obtain ⟨hP, hS, hT, hK⟩ := hg
  obtain ⟨⟨cp, -⟩, ⟨cs, -⟩, ⟨ct, -⟩, ⟨ck, -⟩⟩ := hc
  obtain ⟨ep, bp⟩ := tmod_indice p cp hP
  obtain ⟨et, bt⟩ := tmod_indice t ct hT
  cases hr : d.buscarEnCilindro fs n p t with
  | none =>
    exfalso
    obtain ⟨s, k, ⟨-, ⟨s0, s1⟩, -, ⟨k0, k1⟩⟩, hfit⟩ := h
    obtain ⟨is, ms, es⟩ := existe_indice d.lastSuperficieWritten s0 s1
    obtain ⟨ik, mk, ek⟩ :=
      existe_indice (if t = 0 ∧ is = 0 then d.lastSectorWritten else 0) k0 k1
    have hstart : 0 ≤ (if t = 0 ∧ is = 0 then d.lastSectorWritten else 0) := by
      split <;> omega
    unfold Disco.buscarEnCilindro at hr
    rw [List.findSome?_eq_none_iff] at hr
    have h1 := hr is ms
    rw [List.findSome?_eq_none_iff] at h1
    have h2 := h1 ik mk
    rw [ep, et, (tmod_indice is cs hS).1, (tmod_indice ik hstart hK).1, es, ek,
      probarSector_eq_ite ⟨bp, ⟨s0, s1⟩, bt, ⟨k0, k1⟩⟩, if_pos hfit] at h2
    exact Option.noConfusion h2
  | some r =>
    unfold Disco.buscarEnCilindro at hr
    obtain ⟨s, -, hr⟩ := List.exists_of_findSome?_eq_some hr
    obtain ⟨k, -, hr⟩ := List.exists_of_findSome?_eq_some hr
    have he := (probarSector_eq_some hr).1
    rw [ep, et] at he
    exact ⟨_, _, _, congrArg some he⟩

/-- The search returns an address of the first cylinder, in the order of the
loops, on which a sector fits. -/
theorem buscarEspacio_cilindro (fs : Archivos) (d : Disco) (n : Int)
    (hg : GeometriaPositiva d) (hc : CursorEnRango d) (p t : Nat)
    (hp : (p : Int) < d.numPlatos) (ht : (t : Int) < d.numPistasPorSuperficie)
    (h : ∃ s k : Int,
      EnRango d ((d.lastPlatoWritten + (p : Int)) % d.numPlatos) s
        ((d.lastPistaWritten + (t : Int)) % d.numPistasPorSuperficie) k ∧
      d.cabe fs n ((d.lastPlatoWritten + (p : Int)) % d.numPlatos, s,
        (d.lastPistaWritten + (t : Int)) % d.numPistasPorSuperficie, k) = true)
    (hantes : ∀ p1 t1 : Nat, (p1 < p ∨ (p1 = p ∧ t1 < t)) →
      (t1 : Int) < d.numPistasPorSuperficie → ∀ s k : Int,
      EnRango d ((d.lastPlatoWritten + (p1 : Int)) % d.numPlatos) s
        ((d.lastPistaWritten + (t1 : Int)) % d.numPistasPorSuperficie) k →
      d.cabe fs n ((d.lastPlatoWritten + (p1 : Int)) % d.numPlatos, s,
        (d.lastPistaWritten + (t1 : Int)) % d.numPistasPorSuperficie, k) = false) :
    ∃ s k off : Int, d.buscarEspacio fs n =
      some ((d.lastPlatoWritten + (p : Int)) % d.numPlatos, s,
        (d.lastPistaWritten + (t : Int)) % d.numPistasPorSuperficie, k, off) := by
  obtain ⟨s, k, off, hsome⟩ := buscarEnCilindro_some fs d n hg hc p t h
  refine ⟨s, k, off, ?_⟩
  rw [buscarEspacio_eq_cilindros]
  apply findSome?_range_primero (k := p) (by omega)
  · intro p1 hp1
    rw [List.findSome?_eq_none_iff]
    intro t1 ht1
    rw [List.mem_range] at ht1
    exact buscarEnCilindro_none fs d n hg hc p1 t1
      (hantes p1 t1 (Or.inl hp1) (by omega))
  · apply findSome?_range_primero (k := t) (by omega)
    · intro t1 ht1
      exact buscarEnCilindro_none fs d n hg hc p t1
        (hantes p t1 (Or.inr ⟨rfl, ht1⟩) (by omega))
    · exact hsome

/-- C22 (cylinder locality): on a geometry with positive counts and a cursor
`(p0,s0,t0,sec0)` in bounds, if some sector of platter `p0` at track index `t0`,
on any surface, is not reserved and has `size + n ≤ capacity`, the placement
returned by `encontrarEspacioCilindrico(n)` is on platter `p0` at track index
`t0`.  More generally the placement is on the first cylinder, in the order of
the loops (platter index `p`, then track index `t`), on which a sector fits:
the search leaves a cylinder only when no surface of it has a sector that fits. -/
theorem C22_cylinder_locality (fs : Archivos) (d : Disco) (n : Int)
    (hg : GeometriaPositiva d) (hc : CursorEnRango d) :
    ((∃ s k : Int, EnRango d d.lastPlatoWritten s d.lastPistaWritten k ∧
        isReservedSector d.lastPlatoWritten s d.lastPistaWritten k = false ∧
        d.tamSector fs d.lastPlatoWritten s d.lastPistaWritten k + n ≤
          d.capacidadSectorBytes) →
      (d.encontrarEspacioCilindrico fs n).1.1 = d.lastPlatoWritten ∧
        (d.encontrarEspacioCilindrico fs n).1.2.2.1 = d.lastPistaWritten) ∧
    (∀ p t : Nat, (p : Int) < d.numPlatos → (t : Int) < d.numPistasPorSuperficie →
      (∃ s k : Int,
        EnRango d ((d.lastPlatoWritten + (p : Int)) % d.numPlatos) s
          ((d.lastPistaWritten + (t : Int)) % d.numPistasPorSuperficie) k ∧
        d.cabe fs n ((d.lastPlatoWritten + (p : Int)) % d.numPlatos, s,
          (d.lastPistaWritten + (t : Int)) % d.numPistasPorSuperficie, k) = true) →
      (∀ p1 t1 : Nat, (p1 < p ∨ (p1 = p ∧ t1 < t)) →
        (t1 : Int) < d.numPistasPorSuperficie → ∀ s k : Int,
        EnRango d ((d.lastPlatoWritten + (p1 : Int)) % d.numPlatos) s
          ((d.lastPistaWritten + (t1 : Int)) % d.numPistasPorSuperficie) k →
        d.cabe fs n ((d.lastPlatoWritten + (p1 : Int)) % d.numPlatos, s,
          (d.lastPistaWritten + (t1 : Int)) % d.numPistasPorSuperficie, k) = false) →
      (d.encontrarEspacioCilindrico fs n).1.1 =
          (d.lastPlatoWritten + (p : Int)) % d.numPlatos ∧
        (d.encontrarEspacioCilindrico fs n).1.2.2.1 =
          (d.lastPistaWritten + (t : Int)) % d.numPistasPorSuperficie) := by
  have hgen : ∀ p t : Nat, (p : Int) < d.numPlatos → (t : Int) < d.numPistasPorSuperficie →
      (∃ s k : Int,
        EnRango d ((d.lastPlatoWritten + (p : Int)) % d.numPlatos) s
          ((d.lastPistaWritten + (t : Int)) % d.numPistasPorSuperficie) k ∧
        d.cabe fs n ((d.lastPlatoWritten + (p : Int)) % d.numPlatos, s,
          (d.lastPistaWritten + (t : Int)) % d.numPistasPorSuperficie, k) = true) →
      (∀ p1 t1 : Nat, (p1 < p ∨ (p1 = p ∧ t1 < t)) →
        (t1 : Int) < d.numPistasPorSuperficie → ∀ s k : Int,
        EnRango d ((d.lastPlatoWritten + (p1 : Int)) % d.numPlatos) s
          ((d.lastPistaWritten + (t1 : Int)) % d.numPistasPorSuperficie) k →
        d.cabe fs n ((d.lastPlatoWritten + (p1 : Int)) % d.numPlatos, s,
          (d.lastPistaWritten + (t1 : Int)) % d.numPistasPorSuperficie, k) = false) →
      (d.encontrarEspacioCilindrico fs n).1.1 =
          (d.lastPlatoWritten + (p : Int)) % d.numPlatos ∧
        (d.encontrarEspacioCilindrico fs n).1.2.2.1 =
          (d.lastPistaWritten + (t : Int)) % d.numPistasPorSuperficie := by
    intro p t hp ht h hantes
    obtain ⟨s, k, off, hb⟩ := buscarEspacio_cilindro fs d n hg hc p t hp ht h hantes
    unfold Disco.encontrarEspacioCilindrico
    rw [hb]
    exact ⟨rfl, rfl⟩
  refine ⟨?_, hgen⟩
  rintro ⟨s, k, hb, hr, hfit⟩
  have hc1 := hc
  obtain ⟨⟨cp0, cp1⟩, -, ⟨ct0, ct1⟩, -⟩ := hc1
  have ep : (d.lastPlatoWritten + ((0 : Nat) : Int)) % d.numPlatos = d.lastPlatoWritten := by
    rw [Nat.cast_zero, add_zero]
    exact Int.emod_eq_of_lt cp0 cp1
  have et : (d.lastPistaWritten + ((0 : Nat) : Int)) % d.numPistasPorSuperficie =
      d.lastPistaWritten := by
    rw [Nat.cast_zero, add_zero]
    exact Int.emod_eq_of_lt ct0 ct1
  have h0 := hgen 0 0 (by simpa using hg.1) (by simpa using hg.2.2.1)
  rw [ep, et] at h0
  apply h0
  · exact ⟨s, k, hb, by simp [Disco.cabe, hr, hfit]⟩
  · intro p1 t1 hlt
    omega

/-- C22 applied: on the 2×2×2×3 disk with the cursor at `(1,1,1,2)`, a search
for 4 bytes stays on platter 1 at track index 1. -/
theorem C22_cylinder_locality_witness :
    ({ (Sistema.crear Archivos.vacio 2 2 2 3 50 ['d']).disco with
          lastPlatoWritten := 1, lastSuperficieWritten := 1, lastPistaWritten := 1,
          lastSectorWritten := 2 }.encontrarEspacioCilindrico
        (Sistema.crear Archivos.vacio 2 2 2 3 50 ['d']).archivos 4).1.1 = 1 ∧
      ({ (Sistema.crear Archivos.vacio 2 2 2 3 50 ['d']).disco with
          lastPlatoWritten := 1, lastSuperficieWritten := 1, lastPistaWritten := 1,
          lastSectorWritten := 2 }.encontrarEspacioCilindrico
        (Sistema.crear Archivos.vacio 2 2 2 3 50 ['d']).archivos 4).1.2.2.1 = 1 :=
  (C22_cylinder_locality (Sistema.crear Archivos.vacio 2 2 2 3 50 ['d']).archivos
    { (Sistema.crear Archivos.vacio 2 2 2 3 50 ['d']).disco with
        lastPlatoWritten := 1, lastSuperficieWritten := 1, lastPistaWritten := 1,
        lastSectorWritten := 2 } 4 (by decide) (by decide)).1
    ⟨0, 0, by decide, by decide, by decide⟩

/-! ### The schema sector -/

/-- An insert leaves every sector 0 of track 0, surface 0, platter 0 as it
was, and keeps the schema in memory and the base path. -/
theorem insertarRegistro_sector0 (fs : Archivos) (d : Disco) (x b : Cadena) :
    (d.insertarRegistro fs x).1 ⟨b, 0, 0, 0, 0⟩ = fs ⟨b, 0, 0, 0, 0⟩ ∧
      (d.insertarRegistro fs x).2.1.tablaEsquema = d.tablaEsquema ∧
      (d.insertarRegistro fs x).2.1.rutaBaseDisco = d.rutaBaseDisco := by
  rcases insertarRegistro_cases fs d x with ⟨-, h⟩ | ⟨p, s, t, k, -, hr, -, -, -, hd, hfs⟩
  · rw [h]
    exact ⟨rfl, rfl, rfl⟩
  · rw [hfs, hd]
    refine ⟨?_, rfl, rfl⟩
    unfold Disco.persistirDiccionario Sector.sobrescribir Sector.escribir Disco.rutaSector1
    rw [if_neg (by simp), if_neg]
    intro he
    simp only [Ruta.mk.injEq] at he
    obtain ⟨-, rfl, rfl, rfl, rfl⟩ := he
    simp [isReservedSector] at hr

/-- The inserts of the lines of a CSV file leave the schema sector, the schema
in memory and the base path as they were. -/
theorem insertarLineas_sector0 (lineas : List Cadena) (fs : Archivos) (d : Disco) (b : Cadena) :
    (Disco.insertarLineas fs d lineas).1 ⟨b, 0, 0, 0, 0⟩ = fs ⟨b, 0, 0, 0, 0⟩ ∧
      (Disco.insertarLineas fs d lineas).2.tablaEsquema = d.tablaEsquema ∧
      (Disco.insertarLineas fs d lineas).2.rutaBaseDisco = d.rutaBaseDisco := by
  induction lineas generalizing fs d with
  | nil => exact ⟨rfl, rfl, rfl⟩
  | cons linea resto ih =>
    unfold Disco.insertarLineas
    split
    · obtain ⟨h1, h2, h3⟩ := ih (d.insertarRegistro fs linea).1 (d.insertarRegistro fs linea).2.1
      obtain ⟨g1, g2, g3⟩ := insertarRegistro_sector0 fs d linea b
      exact ⟨h1.trans g1, h2.trans g2, h3.trans g3⟩
    · exact ih fs d

/-- The text after `R1#` at the start of the content. -/
theorem despuesDeR1_inicio (h : Cadena) : despuesDeR1 (['R', '1', '#'] ++ h) = some h := by
  simp [despuesDeR1]

/-- One final newline is dropped. -/
theorem quitarSaltoFinal_salto (h : Cadena) : quitarSaltoFinal (h ++ ['\n']) = h := by
  simp [quitarSaltoFinal]

/-- Content in which `R1#` does not occur has no text after `R1#`. -/
theorem despuesDeR1_none (c : Cadena)
    (h : ∀ a b : Cadena, c ≠ a ++ ['R', '1', '#'] ++ b) : despuesDeR1 c = none := by
  induction c with
  | nil => rfl
  | cons x resto ih =>
    unfold despuesDeR1
    split
    · rename_i hpre
      exfalso
      rcases resto with _ | ⟨c2, _ | ⟨c3, r⟩⟩
      · simp [List.isPrefixOf] at hpre
      · simp [List.isPrefixOf] at hpre
      · simp only [List.isPrefixOf, Bool.and_eq_true, beq_iff_eq] at hpre
        obtain ⟨rfl, rfl, rfl, -⟩ := hpre
        exact h [] r rfl
    · apply ih
      intro a b he
      apply h (x :: a) b
      rw [he]
      rfl

/-- What `cargarEsquema` reads from a schema sector that holds `R1#`, a line
and a newline. -/
theorem cargarEsquema_linea (fs : Archivos) (d : Disco) (h : Cadena)
    (hs : fs d.rutaSector0 = some (['R', '1', '#'] ++ h ++ ['\n'])) :
    d.cargarEsquema fs = { d with tablaEsquema := h } := by
  unfold Disco.cargarEsquema Sector.leerTodo
  rw [hs]
  simp only [Option.getD_some, List.append_assoc, despuesDeR1_inicio, quitarSaltoFinal_salto]
  rfl

/-- C25 (schema round trip): whenever `cargarCSV` stores a schema, which is the
first line `h` of the transformed CSV text when it is not empty, at the end of
the call the schema sector holds exactly `R1#`, `h` and a newline, the schema
in memory is `h`, and `cargarEsquema` reads `h` again; for every `h`, also one
that contains `R1#`, `cargarEsquema` applied to a schema sector that holds
`R1#`, `h` and a newline yields `h`; for an empty schema sector and for content
in which `R1#` does not occur it yields the empty schema. -/
theorem C25_schema_round_trip (fs : Archivos) (d : Disco) :
    (∀ (csv : Option Cadena) (h : Cadena) (resto : List Cadena),
      getlineTodos '\n' (transformarCSV_a_stringstream csv) = h :: resto → h ≠ [] →
      (d.cargarCSV fs csv).1 (d.cargarCSV fs csv).2.rutaSector0 =
          some (['R', '1', '#'] ++ h ++ ['\n']) ∧
        (d.cargarCSV fs csv).2.tablaEsquema = h ∧
        ((d.cargarCSV fs csv).2.cargarEsquema (d.cargarCSV fs csv).1).tablaEsquema = h) ∧
    (∀ h : Cadena, fs d.rutaSector0 = some (['R', '1', '#'] ++ h ++ ['\n']) →
      d.cargarEsquema fs = { d with tablaEsquema := h }) ∧
    (Sector.leerTodo fs d.rutaSector0 = [] → d.cargarEsquema fs = { d with tablaEsquema := [] }) ∧
    ((∀ a b : Cadena, Sector.leerTodo fs d.rutaSector0 ≠ a ++ ['R', '1', '#'] ++ b) →
      d.cargarEsquema fs = { d with tablaEsquema := [] }) := by
  refine ⟨?_, fun h hs => cargarEsquema_linea fs d h hs, ?_, ?_⟩
  · intro csv h resto hl hne
    have hss : (transformarCSV_a_stringstream csv).isEmpty = false := by
      cases hc : transformarCSV_a_stringstream csv with
      | nil => rw [hc] at hl; simp [getlineTodos] at hl
      | cons a l => rfl
    have hh : h.isEmpty = false := by
      cases h with
      | nil => exact absurd rfl hne
      | cons a l => rfl
    have hcsv : d.cargarCSV fs csv =
        Disco.insertarLineas
          (Sector.sobrescribir fs d.rutaSector0 (['R', '1', '#'] ++ h ++ ['\n']))
          { d with tablaEsquema := h } resto := by
      unfold Disco.cargarCSV
      simp only [hss, hl, hh, Bool.false_eq_true, if_false]
    obtain ⟨h1, h2, h3⟩ := insertarLineas_sector0 resto
      (Sector.sobrescribir fs d.rutaSector0 (['R', '1', '#'] ++ h ++ ['\n']))
      { d with tablaEsquema := h } d.rutaBaseDisco
    have hsec : (d.cargarCSV fs csv).1 (d.cargarCSV fs csv).2.rutaSector0 =
        some (['R', '1', '#'] ++ h ++ ['\n']) := by
      rw [hcsv]
      change _ = d.rutaBaseDisco at h3
      show (Disco.insertarLineas _ _ resto).1
        ⟨(Disco.insertarLineas _ _ resto).2.rutaBaseDisco, 0, 0, 0, 0⟩ = _
      rw [h3, h1]
      unfold Sector.sobrescribir Disco.rutaSector0
      rw [if_pos rfl]
    refine ⟨hsec, ?_, ?_⟩
    · rw [hcsv]
      exact h2
    · rw [cargarEsquema_linea _ _ h hsec]
  · intro he
    unfold Disco.cargarEsquema
    simp only [he]
    rfl
  · intro hno
    unfold Disco.cargarEsquema
    simp only [despuesDeR1_none _ hno]
    split <;> rfl

/-- C25 applied: the import of the CSV text `R1#x,y`, newline, `1,2`, newline
on the disk of `ejemplo` stores the schema `R1#x#y`. -/
theorem C25_schema_round_trip_witness :
    (ejemplo.disco.cargarCSV ejemplo.archivos
        (some "R1#x,y\n1,2\n".toList)).1
        (ejemplo.disco.cargarCSV ejemplo.archivos
          (some "R1#x,y\n1,2\n".toList)).2.rutaSector0 =
        some (['R', '1', '#'] ++ "R1#x#y".toList ++ ['\n']) ∧
      (ejemplo.disco.cargarCSV ejemplo.archivos
        (some "R1#x,y\n1,2\n".toList)).2.tablaEsquema = "R1#x#y".toList ∧
      ((ejemplo.disco.cargarCSV ejemplo.archivos
          (some "R1#x,y\n1,2\n".toList)).2.cargarEsquema
        (ejemplo.disco.cargarCSV ejemplo.archivos
          (some "R1#x,y\n1,2\n".toList)).1).tablaEsquema = "R1#x#y".toList :=
  (C25_schema_round_trip ejemplo.archivos ejemplo.disco).1 (some "R1#x,y\n1,2\n".toList)
    "R1#x#y".toList ["1#2".toList] (by decide) (by decide)

/-! ### Records do not overlap -/

/-- The character of a decimal digit is a digit and has the value of the digit. -/
theorem digitChar_valor (m : Nat) (h : m < 10) :
    (Nat.digitChar m).toNat - 48 = m ∧ (Nat.digitChar m).isDigit = true := by
  interval_cases m <;> exact ⟨by decide, by decide⟩

/-- The loop of `Nat.toDigits` in base 10 puts a run of digits, which is not
empty and has the value of the number, before the digits already produced. -/
theorem toDigitsCore_eq (fuel : Nat) : ∀ (n : Nat) (ds : List Char), n < fuel →
    ∃ L : List Char, Nat.toDigitsCore 10 fuel n ds = L ++ ds ∧ L ≠ [] ∧
      (∀ c ∈ L, c.isDigit = true) ∧
      ∀ acc : Nat, L.foldl (fun acc c => 10 * acc + (c.toNat - 48)) acc =
        acc * 10 ^ L.length + n := by
  induction fuel with
  | zero => intro n ds h; omega
  | succ fuel ih =>
    intro n ds h
    obtain ⟨hv, hd⟩ := digitChar_valor (n % 10) (Nat.mod_lt _ (by omega))
    unfold Nat.toDigitsCore
    by_cases h0 : n / 10 = 0
    · simp only [h0, if_true]
      refine ⟨[Nat.digitChar (n % 10)], rfl, by simp, ?_, ?_⟩
      · intro c hc
        rw [List.mem_singleton] at hc
        rw [hc]; exact hd
      · intro acc
        simp only [List.foldl_cons, List.foldl_nil, List.length_singleton, pow_one, hv]
        omega
    · simp only [h0, if_false]
      obtain ⟨L, hL, hne, hdig, hfold⟩ := ih (n / 10) (Nat.digitChar (n % 10) :: ds) (by omega)
      refine ⟨L ++ [Nat.digitChar (n % 10)], ?_, by simp, ?_, ?_⟩
      · rw [hL]; simp
      · intro c hc
        rcases List.mem_append.1 hc with hc | hc
        · exact hdig c hc
        · rw [List.mem_singleton] at hc
          rw [hc]; exact hd
      · intro acc
        rw [List.foldl_append, hfold]
        simp only [List.foldl_cons, List.foldl_nil, List.length_append, List.length_singleton, hv,
          pow_succ]
        have := Nat.div_add_mod n 10
        nlinarith [Nat.div_add_mod n 10]

/-- The decimal text of a natural number is a run of digits that is not empty
and has the value of the number. -/
theorem toDigits_eq (n : Nat) :
    Nat.toDigits 10 n ≠ [] ∧ (∀ c ∈ Nat.toDigits 10 n, c.isDigit = true) ∧
      valorDigitos (Nat.toDigits 10 n) = n := by
  obtain ⟨L, hL, hne, hdig, hfold⟩ := toDigitsCore_eq (n + 1) n [] (by omega)
  unfold Nat.toDigits valorDigitos
  rw [hL, List.append_nil]
  refine ⟨hne, hdig, ?_⟩
  rw [hfold]
  simp

/-- A digit is not white space, a sign, `#` or a newline. -/
theorem isDigit_otros (c : Char) (h : c.isDigit = true) :
    esEspacio c = false ∧ c ≠ '-' ∧ c ≠ '+' ∧ c ≠ '#' ∧ c ≠ '\n' := by
  refine ⟨?_, ?_, ?_, ?_, ?_⟩
  · unfold esEspacio
    simp only [Bool.or_eq_false_iff, beq_eq_false_iff_ne, ne_eq]
    refine ⟨⟨⟨⟨⟨?_, ?_⟩, ?_⟩, ?_⟩, ?_⟩, ?_⟩ <;>
    · rintro rfl
      exact absurd h (by decide)
  all_goals
    rintro rfl
    exact absurd h (by decide)

/-- What `strtol` reads from a run of digits, with and without a minus sign before it. -/
theorem strtol_digitos (L : Cadena) (hne : L ≠ []) (hd : ∀ c ∈ L, c.isDigit = true) :
    strtol L = some (valorDigitos L : Int) ∧
      strtol ('-' :: L) = some (-(valorDigitos L : Int)) := by
  have htake : L.takeWhile Char.isDigit = L := List.takeWhile_eq_self_iff.2 hd
  cases L with
  | nil => exact absurd rfl hne
  | cons c L1 =>
    obtain ⟨he, hm, hp, -, -⟩ := isDigit_otros c (hd c (List.mem_cons_self _ _))
    constructor
    · have hdrop : (c :: L1).dropWhile esEspacio = c :: L1 := by
        simp [List.dropWhile_cons, he]
      have h1 : (some c == some '-') = false := by simp [hm]
      have h2 : (some c == some '+') = false := by simp [hp]
      unfold strtol
      simp only [hdrop, List.head?_cons, h1, h2, Bool.or_self, Bool.false_eq_true, if_false,
        htake, List.isEmpty_cons]
    · unfold strtol
      have hesp : esEspacio '-' = false := by decide
      simp only [List.dropWhile_cons, hesp, Bool.false_eq_true, if_false, List.head?_cons,
        beq_self_eq_true, Bool.true_or, if_true, List.drop_succ_cons, List.drop_zero, htake,
        List.isEmpty_cons]

/-- The conversion `strtol` reads back the integer printed. -/
theorem strtol_to_string (n : Int) : strtol (to_string n) = some n := by
  unfold to_string
  by_cases h : n < 0
  · rw [if_pos h]
    obtain ⟨hne, hd, hv⟩ := toDigits_eq n.natAbs
    rw [(strtol_digitos _ hne hd).2, hv]
    congr 1
    omega
  · rw [if_neg h]
    obtain ⟨hne, hd, hv⟩ := toDigits_eq n.toNat
    rw [(strtol_digitos _ hne hd).1, hv]
    congr 1
    omega

/-- The function `stoi` reads back a printed integer that fits an `int`. -/
theorem stoi_to_string (n : Int) (h : -2147483648 ≤ n ∧ n ≤ 2147483647) :
    stoi (to_string n) = some n := by
  unfold stoi
  rw [strtol_to_string]
  simp only [if_pos h]

/-- The function `stol` reads back a printed integer that fits a `long`. -/
theorem stol_to_string (n : Int) (h : -9223372036854775808 ≤ n ∧ n ≤ 9223372036854775807) :
    stol (to_string n) = some n := by
  unfold stol
  rw [strtol_to_string]
  simp only [if_pos h]

/-- The decimal text of an integer is not empty and has no `#` and no newline. -/
theorem to_string_sin (n : Int) : to_string n ≠ [] ∧ '#' ∉ to_string n ∧ '\n' ∉ to_string n := by
  have hdig : ∀ m : Nat, Nat.toDigits 10 m ≠ [] ∧ '#' ∉ Nat.toDigits 10 m ∧
      '\n' ∉ Nat.toDigits 10 m := by
    intro m
    obtain ⟨hne, hd, -⟩ := toDigits_eq m
    exact ⟨hne, fun hm => (isDigit_otros _ (hd _ hm)).2.2.2.1 rfl,
      fun hm => (isDigit_otros _ (hd _ hm)).2.2.2.2 rfl⟩
  unfold to_string
  split
  · obtain ⟨-, h1, h2⟩ := hdig n.natAbs
    refine ⟨by simp, ?_, ?_⟩
    · intro hm
      rcases List.mem_cons.1 hm with hm | hm
      · exact absurd hm (by decide)
      · exact h1 hm
    · intro hm
      rcases List.mem_cons.1 hm with hm | hm
      · exact absurd hm (by decide)
      · exact h2 hm
  · exact hdig n.toNat

/-! ### Fields and lines -/

/-- A text without the delimiter that is not empty is one piece. -/
theorem getlineTodos_solo (delim : Char) (a : Cadena) (hne : a ≠ []) (ha : delim ∉ a) :
    getlineTodos delim a = [a] := by
  induction a with
  | nil => exact absurd rfl hne
  | cons c a ih =>
    have hc : c ≠ delim := fun h => ha (h ▸ List.mem_cons_self _ _)
    have ha1 : delim ∉ a := fun h => ha (List.mem_cons_of_mem _ h)
    rw [getlineTodos, if_neg hc]
    cases a with
    | nil => rfl
    | cons b a1 => rw [ih (by simp) ha1]

/-- The first line of a text ends before its first newline. -/
theorem takeWhile_salto (a resto : Cadena) (ha : '\n' ∉ a) :
    (a ++ '\n' :: resto).takeWhile (fun c => c != '\n') = a := by
  induction a with
  | nil => simp
  | cons c a ih =>
    have hc : c ≠ '\n' := fun h => ha (h ▸ List.mem_cons_self _ _)
    have ha1 : '\n' ∉ a := fun h => ha (List.mem_cons_of_mem _ h)
    simp only [List.cons_append, List.takeWhile_cons, bne_iff_ne, ne_eq, hc, not_false_eq_true,
      decide_True, if_true, List.cons.injEq, true_and]
    exact ih ha1

/-- Splitting at `#` gives back fields that have no `#`, when the last one is not empty. -/
theorem getlineTodos_unirCampos (cs : List Cadena) (h : ∀ c ∈ cs, '#' ∉ c)
    (hlast : ∀ c, cs.getLast? = some c → c ≠ []) :
    getlineTodos '#' (unirCampos cs) = cs := by
  induction cs with
  | nil => rfl
  | cons a cs ih =>
    cases cs with
    | nil =>
      exact getlineTodos_solo '#' a (hlast a rfl) (h a (List.mem_cons_self _ _))
    | cons b resto =>
      have hrec := ih (fun c hc => h c (List.mem_cons_of_mem _ hc))
        (fun c hc => hlast c (by rw [List.getLast?_cons_cons]; exact hc))
      rw [unirCampos, getlineTodos_sep _ _ _ (h a (List.mem_cons_self _ _)), hrec]

/-- A character of the joined fields is `#` or a character of a field. -/
theorem mem_unirCampos (x : Char) (cs : List Cadena) (hx : x ∈ unirCampos cs) :
    x = '#' ∨ ∃ c ∈ cs, x ∈ c := by
  induction cs with
  | nil => simp [unirCampos] at hx
  | cons a cs ih =>
    cases cs with
    | nil => exact Or.inr ⟨a, List.mem_cons_self _ _, hx⟩
    | cons b resto =>
      rw [unirCampos] at hx
      rcases List.mem_append.1 hx with hm | hm
      · exact Or.inr ⟨a, List.mem_cons_self _ _, hm⟩
      · rcases List.mem_cons.1 hm with hm | hm
        · exact Or.inl hm
        · rcases ih hm with h1 | ⟨c, hc, hxc⟩
          · exact Or.inl h1
          · exact Or.inr ⟨c, List.mem_cons_of_mem _ hc, hxc⟩

/-- The header line written is the fields of the specification joined with `#`
and followed by a newline. -/
theorem lineaConfig_eq (d : Disco) : lineaConfig d = unirCampos (camposConfig d) ++ ['\n'] := by
  simp [lineaConfig, camposConfig, unirCampos]

/-- The line written for an occupied entry is the fields of the specification
joined with `#` and followed by a newline. -/
theorem lineaOcupado_eq (rm : RecordMetadata) :
    lineaOcupado rm = unirCampos (camposOcupado rm) ++ ['\n'] := by
  simp [lineaOcupado, camposOcupado, unirCampos]

/-- The header line has no newline when the name has none. -/
theorem camposConfig_sin_salto (d : Disco) (h : '\n' ∉ d.nombreDisco) :
    '\n' ∉ unirCampos (camposConfig d) := by
  intro hm
  rcases mem_unirCampos _ _ hm with h1 | ⟨c, hc, hxc⟩
  · exact absurd h1 (by decide)
  · simp only [camposConfig, List.mem_cons, List.mem_singleton, List.not_mem_nil,
      or_false] at hc
    rcases hc with rfl | rfl | rfl | rfl | rfl | rfl | rfl
    · exact absurd hxc (by decide)
    · exact (to_string_sin _).2.2 hxc
    · exact (to_string_sin _).2.2 hxc
    · exact (to_string_sin _).2.2 hxc
    · exact (to_string_sin _).2.2 hxc
    · exact (to_string_sin _).2.2 hxc
    · exact h hxc

/-- The line of an occupied entry has no newline. -/
theorem camposOcupado_sin_salto (rm : RecordMetadata) :
    '\n' ∉ unirCampos (camposOcupado rm) := by
  intro hm
  rcases mem_unirCampos _ _ hm with h1 | ⟨c, hc, hxc⟩
  · exact absurd h1 (by decide)
  · simp only [camposOcupado, List.mem_cons, List.mem_singleton, List.not_mem_nil,
      or_false] at hc
    rcases hc with rfl | rfl | rfl | rfl | rfl | rfl | rfl | rfl | rfl
    · exact absurd hxc (by decide)
    · exact (to_string_sin _).2.2 hxc
    · exact (to_string_sin _).2.2 hxc
    · exact (to_string_sin _).2.2 hxc
    · exact (to_string_sin _).2.2 hxc
    · exact (to_string_sin _).2.2 hxc
    · exact (to_string_sin _).2.2 hxc
    · exact (to_string_sin _).2.2 hxc
    · exact absurd hxc (by decide)

/-- Splitting the header line at `#` gives the fields of the specification,
when the name is not empty and has no `#`. -/
theorem getlineTodos_camposConfig (d : Disco) (hne : d.nombreDisco ≠ [])
    (h : '#' ∉ d.nombreDisco) :
    getlineTodos '#' (unirCampos (camposConfig d)) = camposConfig d := by
  apply getlineTodos_unirCampos
  · intro c hc
    simp only [camposConfig, List.mem_cons, List.mem_singleton, List.not_mem_nil,
      or_false] at hc
    rcases hc with rfl | rfl | rfl | rfl | rfl | rfl | rfl
    · decide
    · exact (to_string_sin _).2.1
    · exact (to_string_sin _).2.1
    · exact (to_string_sin _).2.1
    · exact (to_string_sin _).2.1
    · exact (to_string_sin _).2.1
    · exact h
  · intro c hc
    simp only [camposConfig, List.getLast?_cons_cons, List.getLast?_singleton,
      Option.some.injEq] at hc
    rw [← hc]
    exact hne

/-- Splitting the line of an occupied entry at `#` gives its fields. -/
theorem getlineTodos_camposOcupado (rm : RecordMetadata) :
    getlineTodos '#' (unirCampos (camposOcupado rm)) = camposOcupado rm := by
  apply getlineTodos_unirCampos
  · intro c hc
    simp only [camposOcupado, List.mem_cons, List.mem_singleton, List.not_mem_nil,
      or_false] at hc
    rcases hc with rfl | rfl | rfl | rfl | rfl | rfl | rfl | rfl | rfl
    · decide
    · exact (to_string_sin _).2.1
    · exact (to_string_sin _).2.1
    · exact (to_string_sin _).2.1
    · exact (to_string_sin _).2.1
    · exact (to_string_sin _).2.1
    · exact (to_string_sin _).2.1
    · exact (to_string_sin _).2.1
    · decide
  · intro c hc
    simp only [camposOcupado, List.getLast?_cons_cons, List.getLast?_singleton,
      Option.some.injEq] at hc
    rw [← hc]
    decide

/-- The line parser of `cargarDiccionario` reads back an occupied entry whose
fields fit their types. -/
theorem parsearLinea_ocupado (rm : RecordMetadata) (ho : rm.ocupado = true)
    (ht : EntradaEnTipos rm) :
    parsearLinea (unirCampos (camposOcupado rm)) = Lectura.ok (some rm) := by
  obtain ⟨h1, h2, h3, h4, h5, h6, h7⟩ := ht
  unfold parsearLinea
  simp only [getlineTodos_camposOcupado]
  simp only [camposOcupado, List.length_cons, List.length_nil, List.getD_cons_succ,
    List.getD_cons_zero, stol_to_string _ h1, stoi_to_string _ h2, stoi_to_string _ h3,
    stoi_to_string _ h4, stoi_to_string _ h5, stol_to_string _ h6, stoi_to_string _ h7]
  cases rm
  simp_all

/-! ### Round trip of the directory text -/

/-- The lines of occupied entries are the text that stores their lines without newline. -/
theorem flatMap_lineaOcupado (l : List RecordMetadata) :
    l.flatMap lineaOcupado = textoDeLineas (l.map fun rm => unirCampos (camposOcupado rm)) := by
  induction l with
  | nil => rfl
  | cons a l ih =>
    simp only [List.flatMap_cons, List.map_cons, textoDeLineas, lineaOcupado_eq] at ih ⊢
    rw [ih]

/-- The loop of `cargarDiccionario` over the lines of occupied entries whose
fields fit their types appends those entries. -/
theorem cargarLineas_ocupados (l acc : List RecordMetadata)
    (h : ∀ rm ∈ l, rm.ocupado = true ∧ EntradaEnTipos rm) :
    cargarLineas (l.map fun rm => unirCampos (camposOcupado rm)) acc = Lectura.ok (acc ++ l) := by
  induction l generalizing acc with
  | nil => simp [cargarLineas]
  | cons a l ih =>
    obtain ⟨ho, ht⟩ := h a (List.mem_cons_self _ _)
    have hne : (unirCampos (camposOcupado a)).isEmpty = false := rfl
    rw [List.map_cons, cargarLineas, hne]
    simp only [Bool.false_eq_true, if_false, parsearLinea_ocupado a ho ht]
    rw [ih _ (fun rm hm => h rm (List.mem_cons_of_mem _ hm)), List.append_assoc]
    rfl

/-- The lines of the text written by `persistirDiccionario`: the header and the
lines of the occupied entries. -/
theorem getlineTodos_textoDiccionario (d : Disco) (hname : '\n' ∉ d.nombreDisco) :
    getlineTodos '\n' d.textoDiccionario =
      unirCampos (camposConfig d) ::
        (d.diccionarioDeDatosEnRAM.filter fun rm => rm.ocupado).map
          fun rm => unirCampos (camposOcupado rm) := by
  have htexto : d.textoDiccionario =
      textoDeLineas (unirCampos (camposConfig d) ::
        (d.diccionarioDeDatosEnRAM.filter fun rm => rm.ocupado).map
          fun rm => unirCampos (camposOcupado rm)) := by
    rw [textoDiccionario_eq_espejo]
    unfold espejoDirectorio
    rw [flatMap_lineaOcupado, lineaConfig_eq]
    simp [textoDeLineas]
  rw [htexto]
  apply getlineTodos_textoDeLineas
  intro l hl
  rcases List.mem_cons.1 hl with rfl | hl
  · exact camposConfig_sin_salto d hname
  · obtain ⟨rm, -, rfl⟩ := List.mem_map.1 hl
    exact camposOcupado_sin_salto rm

/-- C24 (directory encode/parse round trip): for every directory in memory
whose occupied entries have fields that fit their C++ types, and every disk
name without a newline, `cargarDiccionario` applied to the directory sector
that `persistirDiccionario` wrote yields the entries with `ocupado = true`, in
the same order and with every field equal; so does the loop over the lines
that follow the header of the text written. -/
theorem C24_directory_round_trip (fs : Archivos) (d : Disco) (hname : '\n' ∉ d.nombreDisco)
    (htipos : ∀ rm ∈ d.diccionarioDeDatosEnRAM, rm.ocupado = true → EntradaEnTipos rm) :
    cargarLineas ((getlineTodos '\n' d.textoDiccionario).drop 1) [] =
        Lectura.ok (d.diccionarioDeDatosEnRAM.filter fun rm => rm.ocupado) ∧
      d.cargarDiccionario (d.persistirDiccionario fs) =
        Lectura.ok { d with
          diccionarioDeDatosEnRAM := d.diccionarioDeDatosEnRAM.filter fun rm => rm.ocupado } := by
  have hlineas : cargarLineas ((getlineTodos '\n' d.textoDiccionario).drop 1) [] =
      Lectura.ok (d.diccionarioDeDatosEnRAM.filter fun rm => rm.ocupado) := by
    rw [getlineTodos_textoDiccionario d hname, List.drop_one, List.tail_cons,
      cargarLineas_ocupados _ []]
    · rfl
    · intro rm hm
      obtain ⟨hmem, ho⟩ := List.mem_filter.1 hm
      exact ⟨ho, htipos rm hmem ho⟩
  refine ⟨hlineas, ?_⟩
  unfold Disco.cargarDiccionario Sector.leerTodo
  rw [persistirDiccionario_sector1]
  simp only [Option.getD_some, hlineas]

/-- C24 applied: the directory of the scenario after the inserts of `A#1` and
`B#2` and the delete of id 1 is read back as the entry of `B#2`. -/
theorem C24_directory_round_trip_witness :
    cargarLineas ((getlineTodos '\n'
        (ejemplo.ejecutar [Operacion.insertar ['A', '#', '1'],
          Operacion.insertar ['B', '#', '2'],
          Operacion.eliminar 1]).disco.textoDiccionario).drop 1) [] =
      Lectura.ok ((ejemplo.ejecutar [Operacion.insertar ['A', '#', '1'],
          Operacion.insertar ['B', '#', '2'],
          Operacion.eliminar 1]).disco.diccionarioDeDatosEnRAM.filter fun rm => rm.ocupado) :=
  (C24_directory_round_trip Archivos.vacio
    (ejemplo.ejecutar [Operacion.insertar ['A', '#', '1'], Operacion.insertar ['B', '#', '2'],
      Operacion.eliminar 1]).disco (by decide) (by decide)).1

/-! ### Round trip of the header -/

/-- C23 as stated fails: a disk created with the empty name has the header
`CONFIG#1#1#1#3#50#`, which splits into 6 fields, so that `cargarDisco` returns
the null pointer; a disk created with the name `a#b`, which has no newline, has
a header whose seventh field is `a`, and `cargarDisco` returns a disk named `a`. -/
theorem C23_header_counterexample :
    '\n' ∉ ([] : Cadena) ∧
      (Sistema.crear Archivos.vacio 1 1 1 3 50 []).archivos ⟨rutaDe [], 0, 0, 0, 1⟩ =
        some (String.toList "CONFIG#1#1#1#3#50#\n") ∧
      (getlineTodos '#' (String.toList "CONFIG#1#1#1#3#50#")).length = 6 ∧
      (Disco.cargarDisco (Sistema.crear Archivos.vacio 1 1 1 3 50 []).archivos
        (rutaDe [])).clase = ClaseCarga.nulo ∧
      '\n' ∉ String.toList "a#b" ∧
      (Sistema.crear Archivos.vacio 1 1 1 3 50 (String.toList "a#b")).archivos
          ⟨rutaDe (String.toList "a#b"), 0, 0, 0, 1⟩ =
        some (String.toList "CONFIG#1#1#1#3#50#a#b\n") ∧
      (getlineTodos '#' (String.toList "CONFIG#1#1#1#3#50#a#b")).getD 6 [] = ['a'] ∧
      (Disco.cargarDisco (Sistema.crear Archivos.vacio 1 1 1 3 50 (String.toList "a#b")).archivos
        (rutaDe (String.toList "a#b"))).discoCargado.map (fun d => d.nombreDisco) =
        some ['a'] := by
  decide

/-- After the constructor the directory sector holds the header line alone. -/
theorem crear_sector1 (fs : Archivos) (nPlatos nSuperficies nPistas nSectores capSector : Int)
    (nombre : Cadena) :
    (Sistema.crear fs nPlatos nSuperficies nPistas nSectores capSector nombre).archivos
        ⟨rutaDe nombre, 0, 0, 0, 1⟩ =
      some (unirCampos [['C', 'O', 'N', 'F', 'I', 'G'], to_string nPlatos,
        to_string nSuperficies, to_string nPistas, to_string nSectores, to_string capSector,
        nombre] ++ ['\n']) := by
  have h := lineaConfig_eq
    { nombreDisco := nombre, numPlatos := nPlatos, numSuperficiesPorPlato := nSuperficies,
      numPistasPorSuperficie := nPistas, numSectoresPorPista := nSectores,
      capacidadSectorBytes := capSector, rutaPlatos := rutaDe nombre,
      rutaBaseDisco := rutaDe nombre, tablaEsquema := [], diccionarioDeDatosEnRAM := [],
      lastPlatoWritten := 0, lastSuperficieWritten := 0, lastPistaWritten := 0,
      lastSectorWritten := 0 }
  simp only [camposConfig] at h
  rw [← h]
  simp [Sistema.crear, Disco.nuevo, Disco.persistirDiccionario, Sector.sobrescribir,
    Disco.rutaSector1, Disco.textoDiccionario, rutaDe]

/-- The function `cargarEsquema` keeps the geometry, the capacity and the name. -/
theorem cargarEsquema_campos (fs : Archivos) (d : Disco) :
    (d.cargarEsquema fs).numPlatos = d.numPlatos ∧
      (d.cargarEsquema fs).numSuperficiesPorPlato = d.numSuperficiesPorPlato ∧
      (d.cargarEsquema fs).numPistasPorSuperficie = d.numPistasPorSuperficie ∧
      (d.cargarEsquema fs).numSectoresPorPista = d.numSectoresPorPista ∧
      (d.cargarEsquema fs).capacidadSectorBytes = d.capacidadSectorBytes ∧
      (d.cargarEsquema fs).nombreDisco = d.nombreDisco := by
  obtain ⟨e, he⟩ := cargarEsquema_eq fs d
  rw [he]
  exact ⟨rfl, rfl, rfl, rfl, rfl, rfl⟩

/-- What `cargarDiccionario` reads right after the constructor, under the base
path of the constructor: no entry. -/
theorem cargarDiccionario_nuevo (fs : Archivos)
    (nPlatos nSuperficies nPistas nSectores capSector : Int) (nombre : Cadena)
    (hnl : '\n' ∉ nombre) (d : Disco) (hd : d.rutaBaseDisco = rutaDe nombre) :
    d.cargarDiccionario
        (Disco.nuevo fs nPlatos nSuperficies nPistas nSectores capSector nombre).1 =
      Lectura.ok { d with diccionarioDeDatosEnRAM := [] } := by
  have hfile : (Disco.nuevo fs nPlatos nSuperficies nPistas nSectores capSector nombre).1
      ⟨rutaDe nombre, 0, 0, 0, 1⟩ =
      some (unirCampos [['C', 'O', 'N', 'F', 'I', 'G'], to_string nPlatos,
        to_string nSuperficies, to_string nPistas, to_string nSectores, to_string capSector,
        nombre] ++ ['\n']) :=
    crear_sector1 fs nPlatos nSuperficies nPistas nSectores capSector nombre
  have hsalto := camposConfig_sin_salto
    { nombreDisco := nombre, numPlatos := nPlatos, numSuperficiesPorPlato := nSuperficies,
      numPistasPorSuperficie := nPistas, numSectoresPorPista := nSectores,
      capacidadSectorBytes := capSector, rutaPlatos := rutaDe nombre,
      rutaBaseDisco := rutaDe nombre, tablaEsquema := [], diccionarioDeDatosEnRAM := [],
      lastPlatoWritten := 0, lastSuperficieWritten := 0, lastPistaWritten := 0,
      lastSectorWritten := 0 } hnl
  simp only [camposConfig] at hsalto
  unfold Disco.cargarDiccionario Sector.leerTodo Disco.rutaSector1
  rw [hd, hfile]
  simp only [Option.getD_some]
  rw [getlineTodos_sep _ _ _ hsalto]
  rfl

/-- C23 amended (header round trip): for five counts that fit the C++ type
`int`, positive ones included, and every disk name that is not empty and has
neither a newline nor `#`, the first line of the directory sector written at
creation splits at `#` into 7 fields, the first of which is `CONFIG`; `stoi`
reads the five counts back from the fields 1 to 5, the field 6 is the name, and
`cargarDisco` on the base path of the disk returns a disk with the same five
counts and the same name. -/
theorem C23_header_round_trip (fs : Archivos)
    (nPlatos nSuperficies nPistas nSectores capSector : Int) (nombre : Cadena)
    (hP : EsInt nPlatos) (hS : EsInt nSuperficies) (hT : EsInt nPistas) (hK : EsInt nSectores)
    (hC : EsInt capSector) (hne : nombre ≠ []) (hnl : '\n' ∉ nombre) (hnum : '#' ∉ nombre) :
    ∃ contenido segmentos : _,
      (Sistema.crear fs nPlatos nSuperficies nPistas nSectores capSector nombre).archivos
        ⟨rutaDe nombre, 0, 0, 0, 1⟩ = some contenido ∧
      segmentos = getlineTodos '#' (contenido.takeWhile fun c => c != '\n') ∧
      segmentos.length = 7 ∧
      segmentos.getD 0 [] = ['C', 'O', 'N', 'F', 'I', 'G'] ∧
      stoi (segmentos.getD 1 []) = some nPlatos ∧
      stoi (segmentos.getD 2 []) = some nSuperficies ∧
      stoi (segmentos.getD 3 []) = some nPistas ∧
      stoi (segmentos.getD 4 []) = some nSectores ∧
      stoi (segmentos.getD 5 []) = some capSector ∧
      segmentos.getD 6 [] = nombre ∧
      (Disco.cargarDisco
        (Sistema.crear fs nPlatos nSuperficies nPistas nSectores capSector nombre).archivos
        (rutaDe nombre)).discoCargado.map
          (fun d => (d.numPlatos, d.numSuperficiesPorPlato, d.numPistasPorSuperficie,
            d.numSectoresPorPista, d.capacidadSectorBytes, d.nombreDisco)) =
        some (nPlatos, nSuperficies, nPistas, nSectores, capSector, nombre) := by
  have hfile := crear_sector1 fs nPlatos nSuperficies nPistas nSectores capSector nombre
  have hsalto := camposConfig_sin_salto
    { nombreDisco := nombre, numPlatos := nPlatos, numSuperficiesPorPlato := nSuperficies,
      numPistasPorSuperficie := nPistas, numSectoresPorPista := nSectores,
      capacidadSectorBytes := capSector, rutaPlatos := rutaDe nombre,
      rutaBaseDisco := rutaDe nombre, tablaEsquema := [], diccionarioDeDatosEnRAM := [],
      lastPlatoWritten := 0, lastSuperficieWritten := 0, lastPistaWritten := 0,
      lastSectorWritten := 0 } hnl
  have hseg := getlineTodos_camposConfig
    { nombreDisco := nombre, numPlatos := nPlatos, numSuperficiesPorPlato := nSuperficies,
      numPistasPorSuperficie := nPistas, numSectoresPorPista := nSectores,
      capacidadSectorBytes := capSector, rutaPlatos := rutaDe nombre,
      rutaBaseDisco := rutaDe nombre, tablaEsquema := [], diccionarioDeDatosEnRAM := [],
      lastPlatoWritten := 0, lastSuperficieWritten := 0, lastPistaWritten := 0,
      lastSectorWritten := 0 } hne hnum
  simp only [camposConfig] at hsalto hseg
  have hlinea := takeWhile_salto _ [] hsalto
  refine ⟨_, _, hfile, rfl, ?_, ?_, ?_, ?_, ?_, ?_, ?_, ?_, ?_⟩
  · rw [hlinea, hseg]; rfl
  · rw [hlinea, hseg]; rfl
  · rw [hlinea, hseg]; exact stoi_to_string _ hP
  · rw [hlinea, hseg]; exact stoi_to_string _ hS
  · rw [hlinea, hseg]; exact stoi_to_string _ hT
  · rw [hlinea, hseg]; exact stoi_to_string _ hK
  · rw [hlinea, hseg]; exact stoi_to_string _ hC
  · rw [hlinea, hseg]; rfl
  · unfold Disco.cargarDisco
    rw [hfile]
    simp only [hlinea, hseg, List.length_cons, List.length_nil, List.getD_cons_succ,
      List.getD_cons_zero, stoi_to_string _ hP, stoi_to_string _ hS, stoi_to_string _ hT,
      stoi_to_string _ hK, stoi_to_string _ hC]
    rcases hn : Disco.nuevo
        (Sistema.crear fs nPlatos nSuperficies nPistas nSectores capSector nombre).archivos
        nPlatos nSuperficies nPistas nSectores capSector nombre with ⟨fs1, disco⟩
    have hfs1 : fs1 = (Disco.nuevo
        (Sistema.crear fs nPlatos nSuperficies nPistas nSectores capSector nombre).archivos
        nPlatos nSuperficies nPistas nSectores capSector nombre).1 := by rw [hn]
    obtain ⟨⟨e, hdisco⟩, -⟩ := crear_campos
      (Sistema.crear fs nPlatos nSuperficies nPistas nSectores capSector nombre).archivos
      nPlatos nSuperficies nPistas nSectores capSector nombre
    have hd2 : disco = (Sistema.crear
        (Sistema.crear fs nPlatos nSuperficies nPistas nSectores capSector nombre).archivos
        nPlatos nSuperficies nPistas nSectores capSector nombre).disco := by
      show disco = (Disco.nuevo _ nPlatos nSuperficies nPistas nSectores capSector nombre).2
      rw [hn]
    rw [hdisco] at hd2
    have hcarga := cargarDiccionario_nuevo
      (Sistema.crear fs nPlatos nSuperficies nPistas nSectores capSector nombre).archivos
      nPlatos nSuperficies nPistas nSectores capSector nombre hnl
      { disco with rutaBaseDisco := rutaDe nombre } rfl
    rw [← hfs1] at hcarga
    simp only [Nat.lt_irrefl, ne_eq, not_true_eq_false, or_self, if_false, hcarga]
    simp only [Carga.discoCargado, Option.map_some', cargarEsquema_campos, hd2]

/-- C23 amended, applied: the disk `d` of the scenario, with 1 platter, 1
surface, 1 track, 3 sectors of 50 bytes, is loaded with the same counts and name. -/
theorem C23_header_round_trip_witness :
    (Disco.cargarDisco (Sistema.crear Archivos.vacio 1 1 1 3 50 ['d']).archivos
        (rutaDe ['d'])).discoCargado.map
          (fun d => (d.numPlatos, d.numSuperficiesPorPlato, d.numPistasPorSuperficie,
            d.numSectoresPorPista, d.capacidadSectorBytes, d.nombreDisco)) =
      some (1, 1, 1, 3, 50, ['d']) :=
  match C23_header_round_trip Archivos.vacio 1 1 1 3 50 ['d'] (by decide) (by decide)
    (by decide) (by decide) (by decide) (by decide) (by decide) (by decide) with
  | ⟨_, _, _, _, _, _, _, _, _, _, _, _, h⟩ => h

end DiscoSim
